import Mathlib

/-!
# Alias and email stores of the mailbox frontend

A shallow embedding of `frontend/src/stores/alias.js` and
`frontend/src/stores/email.js`, of the switch request of `frontend/src/api/alias.js`
and of `validatePlatformConfig` of `frontend/src/api/external-sync.js`.

* A store is a record of its reactive fields; every store operation is a pure
  function from the state before the call (and the call's arguments) to the
  state after it, paired with what the caller observes.
* The remote gateway is the environment: what awaiting a gateway call yields is
  an argument of the operation, `Except.error err` for a rejected call
  (transport error) and `Except.ok response` for an envelope.
* What the caller observes is again an `Except`: `Except.error err` when the
  operation throws, `Except.ok v` when it returns `v`.
* Identifiers are natural numbers. The counters of `emailStats` are IEEE doubles
  in the source and are modelled by their integer values: `counter += 1` is
  `jsAddOne`, which rounds as the source does from `2^53` on, and
  `Math.max(0, n - 1)` is `max 0 (n - 1)` on `Int`, the source's result for
  every counter up to `2^53`.
* `currentAlias` is a reference in the source. It is modelled as a reference
  too: either to the object held in a slot of `aliases`, or to an object that
  the array does not hold. Array slots hold pairwise distinct objects.
-/

set_option autoImplicit false

/-! ## Shared helpers -/

/-- Envelope `{success, data, message}` returned by every gateway call. -/
structure Envelope (δ : Type) where
  success : Bool
  data : δ
  message : String
deriving DecidableEq, Repr

/-- Result of awaiting a gateway call; also what a store operation hands to its caller. -/
abbrev Outcome (δ : Type) := Except String (Envelope δ)

/-- `Array.prototype.findIndex`: position of the first element satisfying `p`,
`none` standing for `-1`. -/
def findIndex {α : Type} (p : α → Bool) : List α → Option Nat
  | [] => none
  | x :: xs => if p x then some 0 else (findIndex p xs).map (· + 1)

/-- In-place mutation of the object in slot `i`: the slot holds `f` of the old value. -/
def updateAt {α : Type} : List α → Nat → (α → α) → List α
  | [], _, _ => []
  | x :: xs, 0, f => f x :: xs
  | x :: xs, i + 1, f => x :: updateAt xs i f

/-! ## Alias store (`stores/alias.js`) -/

/-- Alias entity `{id, address, domainId, isDefault, createdAt}`. -/
structure Alias where
  id : Nat
  address : String
  domainId : Nat
  isDefault : Bool
  createdAt : Nat
deriving DecidableEq, Repr

/-- Partial alias object (`aliasData`, `updates`): the fields it carries. -/
structure AliasPatch where
  id : Option Nat := none
  address : Option String := none
  domainId : Option Nat := none
  isDefault : Option Bool := none
  createdAt : Option Nat := none
deriving DecidableEq, Repr

/-- `Object.assign(alias, patch)`: every field the patch carries overwrites the alias's. -/
def Alias.assign (a : Alias) (p : AliasPatch) : Alias :=
  { id := p.id.getD a.id
    address := p.address.getD a.address
    domainId := p.domainId.getD a.domainId
    isDefault := p.isDefault.getD a.isDefault
    createdAt := p.createdAt.getD a.createdAt }

/-- Record of `aliasStats`: `{aliasId, counters...}`; a counter the record was never
given is absent. -/
structure AliasStat where
  aliasId : Nat
  emailCount : Option Int := none
  unreadCount : Option Int := none
deriving DecidableEq, Repr

/-- Object reference held by `currentAlias`. -/
inductive AliasRef where
  /-- The object held in slot `index` of `aliases`. -/
  | cached (index : Nat)
  /-- An object that `aliases` does not hold. -/
  | detached (obj : Alias)
deriving DecidableEq, Repr

/-- Reactive state of the alias store. -/
structure AliasStore where
  aliases : List Alias
  currentAlias : Option AliasRef
  aliasStats : List AliasStat
  loading : Bool
deriving DecidableEq, Repr

namespace AliasStore

/-- State of a freshly created store: `ref([])`, `ref(null)`, `ref([])`, `ref(false)`. -/
def initial : AliasStore :=
  { aliases := [], currentAlias := none, aliasStats := [], loading := false }

/-- Object a reference points to. -/
def deref (s : AliasStore) : AliasRef → Option Alias
  | .cached i => s.aliases[i]?
  | .detached a => some a

/-- Value read through `currentAlias.value` (`none` for `null`). -/
def currentAliasValue (s : AliasStore) : Option Alias :=
  s.currentAlias.bind s.deref

/-- Reference `currentAlias` holds once `aliases.value` is replaced by another
array: the object it pointed to is no longer held by the array. -/
def detachCurrent (s : AliasStore) : Option AliasRef :=
  s.currentAliasValue.map AliasRef.detached

/-- Reference to the same object after `splice(index, 1)` removed another slot. -/
def shiftRef (index : Nat) : AliasRef → AliasRef
  | .cached j => if index < j then .cached (j - 1) else .cached j
  | .detached a => .detached a

/-- `fetchAliases`, lines 13-32. -/
def fetchAliases (s : AliasStore) (outcome : Outcome (List Alias)) :
    AliasStore × Outcome (List Alias) :=
  match outcome with
  | .error err => ({ s with loading := false }, .error err)
  | .ok response =>
    if response.success then
      let aliases := response.data
      let current :=
        match findIndex (fun a => a.isDefault) aliases with
        | some i => some (AliasRef.cached i)
        | none => if aliases.length > 0 then some (AliasRef.cached 0) else s.detachCurrent
      ({ s with aliases := aliases, currentAlias := current, loading := false }, .ok response)
    else ({ s with loading := false }, .ok response)

/-- `createAlias`, lines 63-79. -/
def createAlias (s : AliasStore) (outcome : Outcome Alias) : AliasStore × Outcome Alias :=
  match outcome with
  | .error err => (s, .error err)
  | .ok response =>
    if response.success then
      let aliases := s.aliases ++ [response.data]
      let current :=
        if aliases.length == 1 then some (AliasRef.cached 0) else s.currentAlias
      ({ s with aliases := aliases, currentAlias := current }, .ok response)
    else (s, .ok response)

/-- `aliases.value.forEach(alias => { alias.isDefault = alias.id === aliasId })`. -/
def markDefault (aliasId : Nat) (aliases : List Alias) : List Alias :=
  aliases.map (fun a => { a with isDefault := a.id == aliasId })

/-- `updateAlias`, lines 82-106. -/
def updateAlias {δ : Type} (s : AliasStore) (aliasId : Nat) (aliasData : AliasPatch)
    (outcome : Outcome δ) : AliasStore × Outcome δ :=
  match outcome with
  | .error err => (s, .error err)
  | .ok response =>
    if response.success then
      match findIndex (fun a => a.id == aliasId) s.aliases with
      | some index =>
        let s1 :=
          if aliasData.isDefault == some true then
            { s with aliases := markDefault aliasId s.aliases
                     currentAlias := some (AliasRef.cached index) }
          else s
        ({ s1 with aliases := updateAt s1.aliases index (fun a => a.assign aliasData) },
          .ok response)
      | none => (s, .ok response)
    else (s, .ok response)

/-- `deleteAlias`, lines 109-130. After `splice(index, 1)` the test
`currentAlias.value && currentAlias.value.id === aliasId` reads the id of the
object `currentAlias` points to, whether or not the array still holds it. -/
def deleteAlias {δ : Type} (s : AliasStore) (aliasId : Nat) (outcome : Outcome δ) :
    AliasStore × Outcome δ :=
  match outcome with
  | .error err => (s, .error err)
  | .ok response =>
    if response.success then
      match findIndex (fun a => a.id == aliasId) s.aliases with
      | some index =>
        let aliases := s.aliases.eraseIdx index
        let current :=
          match s.currentAlias with
          | none => none
          | some r =>
            match s.deref r with
            | some c =>
              if c.id == aliasId then
                (if aliases.length > 0 then some (AliasRef.cached 0) else none)
              else some (shiftRef index r)
            | none => some (shiftRef index r)
        ({ s with aliases := aliases, currentAlias := current }, .ok response)
      | none => (s, .ok response)
    else (s, .ok response)

/-- `setDefaultAlias`, lines 133-152. -/
def setDefaultAlias {δ : Type} (s : AliasStore) (aliasId : Nat) (outcome : Outcome δ) :
    AliasStore × Outcome δ :=
  match outcome with
  | .error err => (s, .error err)
  | .ok response =>
    if response.success then
      let aliases := markDefault aliasId s.aliases
      let current :=
        match findIndex (fun a => a.id == aliasId) aliases with
        | some i => some (AliasRef.cached i)
        | none => s.currentAlias
      ({ s with aliases := aliases, currentAlias := current }, .ok response)
    else (s, .ok response)

/-- `switchToAlias`, lines 155-166. -/
def switchToAlias (s : AliasStore) (outcome : Outcome Alias) : AliasStore × Outcome Alias :=
  match outcome with
  | .error err => (s, .error err)
  | .ok response =>
    if response.success then
      ({ s with currentAlias := some (AliasRef.detached response.data) }, .ok response)
    else (s, .ok response)

/-- `addAlias`, lines 190-206; `newAlias` (the source's `alias`) is an object the store
does not hold yet. -/
def addAlias (s : AliasStore) (newAlias : Alias) : AliasStore :=
  let aliases := s.aliases ++ [newAlias]
  if aliases.length == 1 || newAlias.isDefault then
    let cleared :=
      if newAlias.isDefault then
        aliases.map (fun a => if a.id != newAlias.id then { a with isDefault := false } else a)
      else aliases
    { s with aliases := cleared, currentAlias := some (AliasRef.cached (aliases.length - 1)) }
  else { s with aliases := aliases }

/-- `removeAlias`, lines 209-220. -/
def removeAlias (s : AliasStore) (aliasId : Nat) : AliasStore :=
  match findIndex (fun a => a.id == aliasId) s.aliases with
  | some index =>
    let aliases := s.aliases.eraseIdx index
    let current :=
      match s.currentAlias with
      | none => none
      | some r =>
        match s.deref r with
        | some c =>
          if c.id == aliasId then
            (if aliases.length > 0 then some (AliasRef.cached 0) else none)
          else some (shiftRef index r)
        | none => some (shiftRef index r)
    { s with aliases := aliases, currentAlias := current }
  | none => s

/-- `updateAliasInfo`, lines 223-233. -/
def updateAliasInfo (s : AliasStore) (aliasId : Nat) (updates : AliasPatch) : AliasStore :=
  match findIndex (fun a => a.id == aliasId) s.aliases with
  | some i =>
    let s1 := { s with aliases := updateAt s.aliases i (fun a => a.assign updates) }
    match s1.currentAlias with
    | none => s1
    | some r =>
      match s1.deref r with
      | some c =>
        if c.id == aliasId then
          match r with
          | .cached j =>
            { s1 with aliases := updateAt s1.aliases j (fun a => a.assign updates) }
          | .detached a => { s1 with currentAlias := some (AliasRef.detached (a.assign updates)) }
        else s1
      | none => s1
  | none => s

end AliasStore

/-! ## Email store (`stores/email.js`) -/

/-- Email entity `{id, isRead, isImportant, ...}`; `subject` stands for the
fields the store never inspects. -/
structure Email where
  id : Nat
  isRead : Bool
  isImportant : Bool
  subject : String
deriving DecidableEq, Repr

/-- Aggregate `emailStats`. -/
structure EmailStats where
  totalCount : Int
  unreadCount : Int
  importantCount : Int
  todayCount : Int
deriving DecidableEq, Repr

/-- The statement `counter += 1` of lines 108, 169, 344, 346 and 349, on the integer
value `n` of the counter. The sum of two doubles is the double nearest to the exact
sum, and of two equally near doubles the one with the even significand:
* from `-2^53` to `2^53 - 1` the exact sum `n + 1` is a double;
* up to magnitude `2^54` the doubles are the even integers, `n + 1` lies halfway
  between `n` and `n + 2`, and the one whose half is even is taken;
* further out the doubles are at least 4 apart and `n` is the nearest. -/
def jsAddOne (n : Int) : Int :=
  if -9007199254740992 ≤ n ∧ n < 9007199254740992 then n + 1
  else if -18014398509481984 ≤ n ∧ n ≤ 18014398509481984 then
    if (n / 2) % 2 = 0 then n else n + 2
  else n

/-- Largest length of a JavaScript array, `2^32 - 1`. -/
def maxArrayLength : Nat := 4294967295

/-- Cursor `pagination`. -/
structure Pagination where
  current : Int
  size : Int
  total : Int
deriving DecidableEq, Repr

/-- Reactive state of the email store. -/
structure EmailStore where
  emails : List Email
  currentEmail : Option Email
  emailStats : EmailStats
  unreadCounts : List (Nat × Int)
  pagination : Pagination
  loading : Bool
deriving DecidableEq, Repr

namespace EmailStore

/-- State of a freshly created store. -/
def initial : EmailStore :=
  { emails := []
    currentEmail := none
    emailStats := { totalCount := 0, unreadCount := 0, importantCount := 0, todayCount := 0 }
    unreadCounts := []
    pagination := { current := 1, size := 20, total := 0 }
    loading := false }

/-- `markAsRead`, lines 79-95. -/
def markAsRead {δ : Type} (s : EmailStore) (emailId : Nat) (outcome : Outcome δ) :
    EmailStore × Outcome δ :=
  match outcome with
  | .error err => (s, .error err)
  | .ok response =>
    if response.success then
      let emails :=
        match findIndex (fun e => e.id == emailId) s.emails with
        | some i => updateAt s.emails i (fun e => { e with isRead := true })
        | none => s.emails
      ({ s with
          emails := emails
          emailStats :=
            { s.emailStats with unreadCount := max 0 (s.emailStats.unreadCount - 1) } },
        .ok response)
    else (s, .ok response)

/-- `markAsImportant`, lines 98-118. -/
def markAsImportant {δ : Type} (s : EmailStore) (emailId : Nat) (important : Bool)
    (outcome : Outcome δ) : EmailStore × Outcome δ :=
  match outcome with
  | .error err => (s, .error err)
  | .ok response =>
    if response.success then
      let emails :=
        match findIndex (fun e => e.id == emailId) s.emails with
        | some i => updateAt s.emails i (fun e => { e with isImportant := important })
        | none => s.emails
      let importantCount :=
        if important then jsAddOne s.emailStats.importantCount
        else max 0 (s.emailStats.importantCount - 1)
      ({ s with
          emails := emails
          emailStats := { s.emailStats with importantCount := importantCount } },
        .ok response)
    else (s, .ok response)

/-- `deleteEmail`, lines 121-146. -/
def deleteEmail {δ : Type} (s : EmailStore) (emailId : Nat) (outcome : Outcome δ) :
    EmailStore × Outcome δ :=
  match outcome with
  | .error err => (s, .error err)
  | .ok response =>
    if response.success then
      match findIndex (fun e => e.id == emailId) s.emails with
      | some index =>
        match s.emails[index]? with
        | some email =>
          let st1 := { s.emailStats with totalCount := max 0 (s.emailStats.totalCount - 1) }
          let st2 :=
            if !email.isRead then { st1 with unreadCount := max 0 (st1.unreadCount - 1) }
            else st1
          let st3 :=
            if email.isImportant then
              { st2 with importantCount := max 0 (st2.importantCount - 1) }
            else st2
          ({ s with emails := s.emails.eraseIdx index, emailStats := st3 }, .ok response)
        | none => (s, .ok response)
      | none => (s, .ok response)
    else (s, .ok response)

/-- Body of the `forEach` callback of `batchMarkEmails`, lines 154-191: the effect
of one `emailId` on the state. -/
def batchStep (action value : String) (s : EmailStore) (emailId : Nat) : EmailStore :=
  match findIndex (fun e => e.id == emailId) s.emails with
  | none => s
  | some i =>
    match s.emails[i]? with
    | none => s
    | some email =>
      if action = "read" then
        if !email.isRead then
          { s with
              emails := updateAt s.emails i (fun e => { e with isRead := true })
              emailStats :=
                { s.emailStats with unreadCount := max 0 (s.emailStats.unreadCount - 1) } }
        else s
      else if action = "important" then
        let important := decide (value = "true")
        if email.isImportant != important then
          let importantCount :=
            if important then jsAddOne s.emailStats.importantCount
            else max 0 (s.emailStats.importantCount - 1)
          { s with
              emails := updateAt s.emails i (fun e => { e with isImportant := important })
              emailStats := { s.emailStats with importantCount := importantCount } }
        else s
      else if action = "delete" then
        match findIndex (fun e => e.id == emailId) s.emails with
        | some index =>
          match s.emails[index]? with
          | some deletedEmail =>
            let st1 := { s.emailStats with totalCount := max 0 (s.emailStats.totalCount - 1) }
            let st2 :=
              if !deletedEmail.isRead then
                { st1 with unreadCount := max 0 (st1.unreadCount - 1) }
              else st1
            let st3 :=
              if deletedEmail.isImportant then
                { st2 with importantCount := max 0 (st2.importantCount - 1) }
              else st2
            { s with emails := s.emails.eraseIdx index, emailStats := st3 }
          | none => s
        | none => s
      else s

/-- `batchMarkEmails`, lines 149-198. -/
def batchMarkEmails {δ : Type} (s : EmailStore) (emailIds : List Nat) (action value : String)
    (outcome : Outcome δ) : EmailStore × Outcome δ :=
  match outcome with
  | .error err => (s, .error err)
  | .ok response =>
    if response.success then (emailIds.foldl (batchStep action value) s, .ok response)
    else (s, .ok response)

end EmailStore


/-! ## Alias store: reads and advisory calls -/

/-- Response of the availability endpoint, read as `{success, available}`. -/
structure AvailabilityResponse where
  success : Bool
  available : Bool
deriving DecidableEq, Repr

namespace AliasStore

/-- `fetchAliasStats`, lines 35-46. -/
def fetchAliasStats (s : AliasStore) (outcome : Outcome (List AliasStat)) :
    AliasStore × Except String (List AliasStat) :=
  match outcome with
  | .error _ => (s, .ok [])
  | .ok response =>
    if response.success then ({ s with aliasStats := response.data }, .ok response.data)
    else (s, .ok response.data)

/-- `checkAliasAvailability`, lines 169-177. -/
def checkAliasAvailability (s : AliasStore) (outcome : Except String AvailabilityResponse) :
    AliasStore × Except String Bool :=
  match outcome with
  | .error _ => (s, .ok false)
  | .ok response => (s, .ok (if response.success then response.available else false))

/-- `getDefaultAlias`, lines 185-187:
`aliases.value.find(alias => alias.isDefault) || aliases.value[0]`. -/
def getDefaultAlias (s : AliasStore) : Option Alias :=
  match s.aliases.find? (fun a => a.isDefault) with
  | some a => some a
  | none => s.aliases[0]?

end AliasStore

/-! ## Email store: the remaining exposed operations -/

/-- Page envelope `{records, current, size, total}` of the list endpoint. -/
structure EmailPage where
  records : List Email
  current : Int
  size : Int
  total : Int
deriving DecidableEq, Repr

/-- Partial email object (`updates`): the fields it carries. -/
structure EmailPatch where
  id : Option Nat := none
  isRead : Option Bool := none
  isImportant : Option Bool := none
  subject : Option String := none
deriving DecidableEq, Repr

/-- `Object.assign(email, updates)`. -/
def Email.assign (e : Email) (p : EmailPatch) : Email :=
  { id := p.id.getD e.id
    isRead := p.isRead.getD e.isRead
    isImportant := p.isImportant.getD e.isImportant
    subject := p.subject.getD e.subject }

/-- Stats object carried by the stats endpoint: the counters it carries. -/
structure EmailStatsPatch where
  totalCount : Option Int := none
  unreadCount : Option Int := none
  importantCount : Option Int := none
  todayCount : Option Int := none
deriving DecidableEq, Repr

/-- `Object.assign(emailStats, data)`. -/
def EmailStats.assign (st : EmailStats) (p : EmailStatsPatch) : EmailStats :=
  { totalCount := p.totalCount.getD st.totalCount
    unreadCount := p.unreadCount.getD st.unreadCount
    importantCount := p.importantCount.getD st.importantCount
    todayCount := p.todayCount.getD st.todayCount }

namespace EmailStore

/-- `fetchEmails`, lines 24-38. -/
def fetchEmails (s : EmailStore) (outcome : Outcome EmailPage) :
    EmailStore × Outcome EmailPage :=
  match outcome with
  | .error err => ({ s with loading := false }, .error err)
  | .ok response =>
    if response.success then
      ({ s with
          emails := response.data.records
          pagination :=
            { current := response.data.current
              size := response.data.size
              total := response.data.total }
          loading := false },
        .ok response)
    else ({ s with loading := false }, .ok response)

/-- `fetchEmailDetail`, lines 41-52; returns `response.data`. -/
def fetchEmailDetail (s : EmailStore) (outcome : Outcome Email) :
    EmailStore × Except String Email :=
  match outcome with
  | .error err => (s, .error err)
  | .ok response =>
    if response.success then
      ({ s with currentEmail := some response.data }, .ok response.data)
    else (s, .ok response.data)

/-- `sendEmail`, lines 55-76: the form data is built from the arguments, the response is
returned, a rejection is thrown again; no reactive field is written. -/
def sendEmail {δ : Type} (s : EmailStore) (outcome : Outcome δ) : EmailStore × Outcome δ :=
  match outcome with
  | .error err => (s, .error err)
  | .ok response => (s, .ok response)

/-- `syncEmails`, lines 201-209. -/
def syncEmails {δ : Type} (s : EmailStore) (outcome : Outcome δ) : EmailStore × Outcome δ :=
  match outcome with
  | .error err => (s, .error err)
  | .ok response => (s, .ok response)

/-- `fetchNewEmails`, lines 212-220: `response.data || []`, and `[]` on rejection. -/
def fetchNewEmails (s : EmailStore) (outcome : Outcome (Option (List Email))) :
    EmailStore × Except String (List Email) :=
  match outcome with
  | .error _ => (s, .ok [])
  | .ok response => (s, .ok (response.data.getD []))

/-- `fetchEmailStats`, lines 223-234. -/
def fetchEmailStats (s : EmailStore) (outcome : Outcome EmailStatsPatch) :
    EmailStore × Except String EmailStatsPatch :=
  match outcome with
  | .error err => (s, .error err)
  | .ok response =>
    if response.success then
      ({ s with emailStats := s.emailStats.assign response.data }, .ok response.data)
    else (s, .ok response.data)

/-- `fetchUnreadCounts`, lines 237-248. -/
def fetchUnreadCounts (s : EmailStore) (outcome : Outcome (List (Nat × Int))) :
    EmailStore × Except String (List (Nat × Int)) :=
  match outcome with
  | .error _ => (s, .ok [])
  | .ok response =>
    if response.success then ({ s with unreadCounts := response.data }, .ok response.data)
    else (s, .ok response.data)

/-- `replyEmail`, lines 251-259. -/
def replyEmail {δ : Type} (s : EmailStore) (outcome : Outcome δ) : EmailStore × Outcome δ :=
  match outcome with
  | .error err => (s, .error err)
  | .ok response => (s, .ok response)

/-- `forwardEmail`, lines 262-270. -/
def forwardEmail {δ : Type} (s : EmailStore) (outcome : Outcome δ) : EmailStore × Outcome δ :=
  match outcome with
  | .error err => (s, .error err)
  | .ok response => (s, .ok response)

/-- `fetchEmailAttachments`, lines 273-281. -/
def fetchEmailAttachments {α : Type} (s : EmailStore) (outcome : Outcome (List α)) :
    EmailStore × Except String (List α) :=
  match outcome with
  | .error _ => (s, .ok [])
  | .ok response => (s, .ok (if response.success then response.data else []))

/-- `downloadAttachment`, lines 284-292. -/
def downloadAttachment {δ : Type} (s : EmailStore) (outcome : Outcome δ) :
    EmailStore × Outcome δ :=
  match outcome with
  | .error err => (s, .error err)
  | .ok response => (s, .ok response)

/-- `uploadAttachment`, lines 295-305. -/
def uploadAttachment {δ : Type} (s : EmailStore) (outcome : Outcome δ) :
    EmailStore × Outcome δ :=
  match outcome with
  | .error err => (s, .error err)
  | .ok response => (s, .ok response)

/-- `searchEmails`, lines 308-310: `return await fetchEmails(searchParams)`. -/
def searchEmails (s : EmailStore) (outcome : Outcome EmailPage) :
    EmailStore × Outcome EmailPage :=
  s.fetchEmails outcome

/-- `clearEmails`, lines 313-327. -/
def clearEmails (s : EmailStore) : EmailStore :=
  { s with
      emails := []
      currentEmail := none
      emailStats := { totalCount := 0, unreadCount := 0, importantCount := 0, todayCount := 0 }
      pagination := { current := 1, size := 20, total := 0 } }

/-- `updateEmailStatus`, lines 330-339. The object behind `currentEmail` is never one of
the window's: it is only ever assigned `response.data` of the detail call, or `null`. -/
def updateEmailStatus (s : EmailStore) (emailId : Nat) (updates : EmailPatch) : EmailStore :=
  let emails :=
    match findIndex (fun e => e.id == emailId) s.emails with
    | some i => updateAt s.emails i (fun e => e.assign updates)
    | none => s.emails
  let currentEmail :=
    match s.currentEmail with
    | some c => if c.id == emailId then some (c.assign updates) else some c
    | none => none
  { s with emails := emails, currentEmail := currentEmail }

/-- `addEmail`, lines 342-351. `unshift` inserts into a JavaScript array, which holds
fewer than `maxArrayLength` emails before the insertion; each `+= 1` is then `jsAddOne`.
A list of `maxArrayLength` emails or more stands for no window into which the source can
insert (on a full array `unshift` throws a `RangeError`); on such a list the sums are the
integer sums. -/
def addEmail (s : EmailStore) (email : Email) : EmailStore :=
  let addOne : Int → Int :=
    fun n => if s.emails.length < maxArrayLength then jsAddOne n else n + 1
  let st1 := { s.emailStats with totalCount := addOne s.emailStats.totalCount }
  let st2 := if !email.isRead then { st1 with unreadCount := addOne st1.unreadCount } else st1
  let st3 :=
    if email.isImportant then { st2 with importantCount := addOne st2.importantCount } else st2
  { s with emails := email :: s.emails, emailStats := st3 }

/-- `removeEmail`, lines 354-372. -/
def removeEmail (s : EmailStore) (emailId : Nat) : EmailStore :=
  let s1 :=
    match findIndex (fun e => e.id == emailId) s.emails with
    | some index =>
      match s.emails[index]? with
      | some email =>
        let st1 := { s.emailStats with totalCount := max 0 (s.emailStats.totalCount - 1) }
        let st2 :=
          if !email.isRead then { st1 with unreadCount := max 0 (st1.unreadCount - 1) }
          else st1
        let st3 :=
          if email.isImportant then
            { st2 with importantCount := max 0 (st2.importantCount - 1) }
          else st2
        { s with emails := s.emails.eraseIdx index, emailStats := st3 }
      | none => s
    | none => s
  match s1.currentEmail with
  | some c => if c.id == emailId then { s1 with currentEmail := none } else s1
  | none => s1

end EmailStore

/-! ## Alias store: the statistics table -/

/-- Stats object given to `updateAliasStats`: the fields it carries. -/
structure AliasStatPatch where
  aliasId : Option Nat := none
  emailCount : Option Int := none
  unreadCount : Option Int := none
deriving DecidableEq, Repr

/-- `Object.assign(record, stats)`, also the spread `{ ...record, ...stats }`. -/
def AliasStat.assign (r : AliasStat) (p : AliasStatPatch) : AliasStat :=
  { aliasId := p.aliasId.getD r.aliasId
    emailCount := match p.emailCount with
      | some v => some v
      | none => r.emailCount
    unreadCount := match p.unreadCount with
      | some v => some v
      | none => r.unreadCount }

namespace AliasStore

/-- `getAliasStats`, lines 243-245. -/
def getAliasStats (s : AliasStore) (aliasId : Nat) : Option AliasStat :=
  s.aliasStats.find? (fun stat => stat.aliasId == aliasId)

/-- `updateAliasStats`, lines 248-255; the pushed record is `{ aliasId, ...stats }`. -/
def updateAliasStats (s : AliasStore) (aliasId : Nat) (stats : AliasStatPatch) : AliasStore :=
  match findIndex (fun stat => stat.aliasId == aliasId) s.aliasStats with
  | some index =>
    { s with aliasStats := updateAt s.aliasStats index (fun stat => stat.assign stats) }
  | none =>
    { s with aliasStats := s.aliasStats ++ [({ aliasId := aliasId } : AliasStat).assign stats] }

end AliasStore

/-! ## Alias API (`api/alias.js`) -/

/-- Value of a query parameter. -/
inductive QueryValue where
  | undefined
  | num (n : Nat)
  | str (s : String)
deriving DecidableEq, Repr

/-- JavaScript truthiness of a query value. -/
def QueryValue.truthy : QueryValue → Bool
  | .undefined => false
  | .num n => n != 0
  | .str s => s != ""

/-- `a || b`. -/
def QueryValue.or (a b : QueryValue) : QueryValue :=
  if a.truthy then a else b

/-- The `params` argument of `switchToAlias`: for each of the three keys the value it
holds, `none` when the object has no such key, and its other keys. -/
structure SwitchParams where
  page : Option QueryValue := none
  size : Option QueryValue := none
  folder : Option QueryValue := none
  others : List (String × QueryValue) := []
deriving DecidableEq, Repr

/-- Query of the switch request: `page`, `size`, `folder` and the other keys. -/
structure SwitchQuery where
  page : QueryValue
  size : QueryValue
  folder : QueryValue
  others : List (String × QueryValue)
deriving DecidableEq, Repr

/-- Argument of `request(...)`. -/
structure SwitchRequest where
  url : String
  method : String
  params : SwitchQuery
deriving DecidableEq, Repr

namespace userAliasApi

/-- Property read `params.key`: `undefined` when the object has no such key. -/
def read (v : Option QueryValue) : QueryValue :=
  v.getD QueryValue.undefined

/-- Value of a key in `{ key: first, ...params }`: an own key of `params` overwrites the
value written before the spread. -/
def spread (first : QueryValue) (own : Option QueryValue) : QueryValue :=
  match own with
  | some v => v
  | none => first

/-- `switchToAlias`, lines 82-93: the request object handed to `request`. -/
def switchToAlias (aliasId : Nat) (params : SwitchParams) : SwitchRequest :=
  { url := "/api/aliases/" ++ toString aliasId ++ "/switch"
    method := "post"
    params :=
      { page := spread ((read params.page).or (QueryValue.num 1)) params.page
        size := spread ((read params.size).or (QueryValue.num 20)) params.size
        folder := spread ((read params.folder).or (QueryValue.str "inbox")) params.folder
        others := params.others } }

end userAliasApi

/-- Methods defined on `userAliasApi`, lines 6-108, the object that `aliasApi` names
(line 323: `export const aliasApi = userAliasApi`). -/
def aliasApiMethods : List String :=
  ["getList", "getStats", "getDefault", "create", "update", "delete", "setDefault",
   "switchToAlias", "checkAvailability"]

/-- Methods the alias store invokes on `aliasApi` (stores/alias.js lines 16, 37, 51, 65,
84, 111, 135, 157 and 171). -/
def aliasStoreGatewayCalls : List String :=
  ["getAliases", "getAliasStats", "getDefaultAlias", "createAlias", "updateAlias",
   "deleteAlias", "setDefaultAlias", "switchToAlias", "checkAliasAvailability"]

/-- What `await aliasApi.method(...)` yields inside a store operation: what the gateway
serves when `aliasApi` defines the method, a `TypeError` otherwise. -/
def aliasApiCall {ρ : Type} (method : String) (served : Except String ρ) : Except String ρ :=
  if method ∈ aliasApiMethods then served
  else .error ("TypeError: aliasApi." ++ method ++ " is not a function")

/-! ## External synchronisation (`api/external-sync.js`) -/

/-- Entry of `PLATFORM_CONFIG_TEMPLATES`. -/
structure PlatformTemplate where
  name : String
  description : String
  requiredFields : List String
  urlExample : String
  apiDocUrl : String
deriving DecidableEq, Repr

/-- `PLATFORM_CONFIG_TEMPLATES`, lines 216-259, as its own keys and their values. -/
def PLATFORM_CONFIG_TEMPLATES : List (String × PlatformTemplate) :=
  [("POSTE_IO",
      { name := "Poste.io", description := "开源邮件服务器"
        requiredFields := ["platformUrl", "externalUsername", "externalPassword"]
        urlExample := "https://mail.yourdomain.com"
        apiDocUrl := "https://github.com/analogic/poste.io" }),
   ("MAIL_COW",
      { name := "Mailcow", description := "Docker化邮件服务器"
        requiredFields := ["platformUrl", "apiKey"]
        urlExample := "https://mailcow.yourdomain.com"
        apiDocUrl := "https://mailcow.github.io/mailcow-dockerized-docs/" }),
   ("ZIMBRA",
      { name := "Zimbra", description := "企业邮件服务器"
        requiredFields := ["platformUrl", "externalUsername", "externalPassword"]
        urlExample := "https://zimbra.yourdomain.com"
        apiDocUrl := "https://www.zimbra.com/" }),
   ("EXCHANGE",
      { name := "Microsoft Exchange", description := "微软企业邮件"
        requiredFields := ["platformUrl", "externalUsername", "externalPassword"]
        urlExample := "https://exchange.yourdomain.com"
        apiDocUrl := "https://docs.microsoft.com/en-us/exchange/" }),
   ("HACKERONE",
      { name := "HackerOne", description := "漏洞悬赏平台邮件系统"
        requiredFields := ["platformUrl", "apiKey", "externalUsername"]
        urlExample := "https://api.hackerone.com"
        apiDocUrl := "https://docs.hackerone.com/" }),
   ("CUSTOM",
      { name := "自定义平台", description := "通过API集成的自定义邮件平台"
        requiredFields := ["platformUrl", "apiKey"]
        urlExample := "https://api.yourdomain.com"
        apiDocUrl := "" })]

/-- Property names every object literal inherits from `Object.prototype`. -/
def objectPrototypeNames : List String :=
  ["constructor", "hasOwnProperty", "isPrototypeOf", "propertyIsEnumerable",
   "toLocaleString", "toString", "valueOf", "__proto__", "__defineGetter__",
   "__defineSetter__", "__lookupGetter__", "__lookupSetter__"]

/-- Result of the property read `PLATFORM_CONFIG_TEMPLATES[key]`. -/
inductive TemplateLookup where
  /-- An own key: its template. -/
  | template (t : PlatformTemplate)
  /-- A name inherited from `Object.prototype`: a truthy value without `requiredFields`. -/
  | inherited
  /-- No such property: `undefined`. -/
  | undefined
deriving DecidableEq, Repr

/-- `PLATFORM_CONFIG_TEMPLATES[key]`: own keys first, then the prototype. -/
def lookupTemplate (key : String) : TemplateLookup :=
  match PLATFORM_CONFIG_TEMPLATES.lookup key with
  | some t => .template t
  | none => if key ∈ objectPrototypeNames then .inherited else .undefined

/-- The `config` argument: for each field the functions read, the string it holds, `none`
when the field is absent. -/
structure PlatformConfig where
  platformType : Option String := none
  platformUrl : Option String := none
  externalUsername : Option String := none
  externalPassword : Option String := none
  apiKey : Option String := none
  externalAliasAddress : Option String := none
deriving DecidableEq, Repr

/-- Property read `config[field]`. -/
def PlatformConfig.get (config : PlatformConfig) (field : String) : Option String :=
  if field = "platformType" then config.platformType
  else if field = "platformUrl" then config.platformUrl
  else if field = "externalUsername" then config.externalUsername
  else if field = "externalPassword" then config.externalPassword
  else if field = "apiKey" then config.apiKey
  else if field = "externalAliasAddress" then config.externalAliasAddress
  else none

/-- Truthiness of a field: present and not the empty string. -/
def fieldTruthy (v : Option String) : Bool :=
  match v with
  | some s => s != ""
  | none => false

/-- Object returned by `validatePlatformConfig`: `{ valid, message }`. -/
structure ValidationResult where
  valid : Bool
  message : Option String
deriving DecidableEq, Repr

/-- `validatePlatformConfig`, lines 264-300. `urlParses` tells whether `new URL(s)`
returns, `emailMatches` whether the address matches the regular expression of line 293;
`Except.error` is a thrown exception. -/
def validatePlatformConfig (urlParses emailMatches : String → Bool)
    (config : PlatformConfig) : Except String ValidationResult :=
  if !fieldTruthy config.platformType || !fieldTruthy config.platformUrl then
    .ok { valid := false, message := some "平台类型和URL是必填项" }
  else
    match lookupTemplate (config.platformType.getD "") with
    | .undefined => .ok { valid := false, message := some "不支持的平台类型" }
    | .inherited => .error "TypeError: template.requiredFields is not iterable"
    | .template template =>
      match template.requiredFields.find? (fun field => !fieldTruthy (config.get field)) with
      | some field =>
        .ok { valid := false
              message := some (field ++ "是" ++ template.name ++ "平台的必填项") }
      | none =>
        if !urlParses (config.platformUrl.getD "") then
          .ok { valid := false, message := some "平台URL格式不正确" }
        else if fieldTruthy config.externalAliasAddress
            && !emailMatches (config.externalAliasAddress.getD "") then
          .ok { valid := false, message := some "外部别名地址格式不正确" }
        else .ok { valid := true, message := none }
/-! ## Vocabulary of the properties and sample states -/

/-- A gateway call that failed: it was rejected, or its envelope has `success = false`. -/
def Outcome.failed {δ : Type} : Outcome δ → Prop
  | .error _ => True
  | .ok response => response.success = false

/-- Envelope `{success: true}` of a write endpoint that returns nothing else. -/
def okUnit : Outcome Unit := .ok { success := true, data := (), message := "" }

/-- Successful response of the list endpoint carrying `data`. -/
def okAliases (data : List Alias) : Outcome (List Alias) :=
  .ok { success := true, data := data, message := "" }

/-- Window holding one email, id 1, already read and already important; the
counters say 3 unread and 1 important. -/
def readWindow : EmailStore :=
  { EmailStore.initial with
      emails := [{ id := 1, isRead := true, isImportant := true, subject := "hello" }]
      emailStats := { totalCount := 5, unreadCount := 3, importantCount := 1, todayCount := 0 } }

/-- Alias `A`, flagged default. -/
def aliasA : Alias :=
  { id := 1, address := "a@example.com", domainId := 1, isDefault := true, createdAt := 0 }

/-- Alias `B`, flagged default as well. -/
def aliasB : Alias :=
  { id := 2, address := "b@example.com", domainId := 1, isDefault := true, createdAt := 0 }

/-- Store caching `[A]` with `A` as current alias. -/
def storeWithA : AliasStore :=
  { AliasStore.initial with aliases := [aliasA], currentAlias := some (AliasRef.cached 0) }

/-- Window holding two emails with id 1: the first one read, the second one unread. -/
def readThenUnreadWindow : EmailStore :=
  { EmailStore.initial with
      emails := [{ id := 1, isRead := true, isImportant := false, subject := "first" },
                 { id := 1, isRead := false, isImportant := false, subject := "second" }]
      emailStats := { totalCount := 2, unreadCount := 1, importantCount := 0, todayCount := 0 } }

/-- Window holding two emails with id 1: the first one unread and important, the
second one read and not important. -/
def unreadThenReadWindow : EmailStore :=
  { EmailStore.initial with
      emails := [{ id := 1, isRead := false, isImportant := true, subject := "first" },
                 { id := 1, isRead := true, isImportant := false, subject := "second" }]
      emailStats := { totalCount := 2, unreadCount := 1, importantCount := 1, todayCount := 0 } }

/-- Window of the deletion scenario: `[{id: 1, isRead: false, isImportant: true}]` with
stats `{total: 1, unread: 1, important: 1}`. -/
def singleUnreadWindow : EmailStore :=
  { EmailStore.initial with
      emails := [{ id := 1, isRead := false, isImportant := true, subject := "only" }]
      emailStats := { totalCount := 1, unreadCount := 1, importantCount := 1, todayCount := 0 } }

/-- Number of distinct ids in `ids` that identify an unread email of the window. -/
def EmailStore.unreadHits (s : EmailStore) (ids : List Nat) : Nat :=
  (ids.toFinset.filter (fun i => ∃ e ∈ s.emails, e.id = i ∧ e.isRead = false)).card

/-- Empty window whose `unreadCount` is negative. -/
def negativeUnreadStore : EmailStore :=
  { EmailStore.initial with
      emailStats := { totalCount := 0, unreadCount := -1, importantCount := 0, todayCount := 0 } }

/-- Window holding two unread emails, ids 1 and 2, with `unreadCount = 5`. -/
def twoUnreadWindow : EmailStore :=
  { EmailStore.initial with
      emails := [{ id := 1, isRead := false, isImportant := false, subject := "one" },
                 { id := 2, isRead := false, isImportant := false, subject := "two" }]
      emailStats := { totalCount := 9, unreadCount := 5, importantCount := 0, todayCount := 0 } }

/-- At most one alias of the sequence has `isDefault = true`. -/
def AtMostOneDefault (l : List Alias) : Prop :=
  l.countP (fun a => a.isDefault) ≤ 1

instance (l : List Alias) : Decidable (AtMostOneDefault l) :=
  inferInstanceAs (Decidable (l.countP (fun a => a.isDefault) ≤ 1))

/-- States reachable from the initial store by `fetchAliases`, `createAlias`,
`updateAlias`, `deleteAlias`, `setDefaultAlias`, `addAlias`, `removeAlias` and
`updateAliasInfo`, with arbitrary arguments and arbitrary gateway outcomes. -/
inductive AliasStore.Reachable : AliasStore → Prop
  | initial : AliasStore.Reachable AliasStore.initial
  | fetchAliases {s : AliasStore} (outcome : Outcome (List Alias)) :
      AliasStore.Reachable s → AliasStore.Reachable (s.fetchAliases outcome).1
  | createAlias {s : AliasStore} (outcome : Outcome Alias) :
      AliasStore.Reachable s → AliasStore.Reachable (s.createAlias outcome).1
  | updateAlias {s : AliasStore} (aliasId : Nat) (aliasData : AliasPatch)
      (outcome : Outcome Unit) :
      AliasStore.Reachable s → AliasStore.Reachable (s.updateAlias aliasId aliasData outcome).1
  | deleteAlias {s : AliasStore} (aliasId : Nat) (outcome : Outcome Unit) :
      AliasStore.Reachable s → AliasStore.Reachable (s.deleteAlias aliasId outcome).1
  | setDefaultAlias {s : AliasStore} (aliasId : Nat) (outcome : Outcome Unit) :
      AliasStore.Reachable s → AliasStore.Reachable (s.setDefaultAlias aliasId outcome).1
  | addAlias {s : AliasStore} (newAlias : Alias) :
      AliasStore.Reachable s → AliasStore.Reachable (s.addAlias newAlias)
  | removeAlias {s : AliasStore} (aliasId : Nat) :
      AliasStore.Reachable s → AliasStore.Reachable (s.removeAlias aliasId)
  | updateAliasInfo {s : AliasStore} (aliasId : Nat) (updates : AliasPatch) :
      AliasStore.Reachable s → AliasStore.Reachable (s.updateAliasInfo aliasId updates)

/-- What a successful outcome must satisfy: `P` holds of every envelope with
`success = true`; rejected calls and `success = false` envelopes are unconstrained. -/
def Outcome.onSuccess {δ : Type} (outcome : Outcome δ) (P : δ → Prop) : Prop :=
  match outcome with
  | .error _ => True
  | .ok response => response.success = true → P response.data

/-- States reachable from the initial store by the same eight operations when the
entities entering the cache keep ids unique and do not bring a second default:
* a list returned by `fetchAliases` has pairwise distinct ids and at most one default;
* the entity returned by `createAlias` has an id not yet cached and is not flagged
  default while a cached alias is;
* the alias given to `addAlias` has an id not yet cached;
* the patch of `updateAlias` and of `updateAliasInfo` does not change the id;
* the patch of `updateAliasInfo` does not set `isDefault` to true while another cached
  alias is flagged default. -/
inductive AliasStore.ReachableUniqueIds : AliasStore → Prop
  | initial : AliasStore.ReachableUniqueIds AliasStore.initial
  | fetchAliases {s : AliasStore} (outcome : Outcome (List Alias)) :
      AliasStore.ReachableUniqueIds s →
      outcome.onSuccess (fun data => (data.map (fun a => a.id)).Nodup ∧ AtMostOneDefault data) →
      AliasStore.ReachableUniqueIds (s.fetchAliases outcome).1
  | createAlias {s : AliasStore} (outcome : Outcome Alias) :
      AliasStore.ReachableUniqueIds s →
      outcome.onSuccess (fun data => data.id ∉ s.aliases.map (fun a => a.id) ∧
        (data.isDefault = true → ∀ a ∈ s.aliases, a.isDefault = false)) →
      AliasStore.ReachableUniqueIds (s.createAlias outcome).1
  | updateAlias {s : AliasStore} (aliasId : Nat) (aliasData : AliasPatch)
      (outcome : Outcome Unit) :
      AliasStore.ReachableUniqueIds s →
      (aliasData.id = none ∨ aliasData.id = some aliasId) →
      AliasStore.ReachableUniqueIds (s.updateAlias aliasId aliasData outcome).1
  | deleteAlias {s : AliasStore} (aliasId : Nat) (outcome : Outcome Unit) :
      AliasStore.ReachableUniqueIds s →
      AliasStore.ReachableUniqueIds (s.deleteAlias aliasId outcome).1
  | setDefaultAlias {s : AliasStore} (aliasId : Nat) (outcome : Outcome Unit) :
      AliasStore.ReachableUniqueIds s →
      AliasStore.ReachableUniqueIds (s.setDefaultAlias aliasId outcome).1
  | addAlias {s : AliasStore} (newAlias : Alias) :
      AliasStore.ReachableUniqueIds s →
      newAlias.id ∉ s.aliases.map (fun a => a.id) →
      AliasStore.ReachableUniqueIds (s.addAlias newAlias)
  | removeAlias {s : AliasStore} (aliasId : Nat) :
      AliasStore.ReachableUniqueIds s →
      AliasStore.ReachableUniqueIds (s.removeAlias aliasId)
  | updateAliasInfo {s : AliasStore} (aliasId : Nat) (updates : AliasPatch) :
      AliasStore.ReachableUniqueIds s →
      (updates.id = none ∨ updates.id = some aliasId) →
      (updates.isDefault = some true →
        ∀ a ∈ s.aliases, a.id ≠ aliasId → a.isDefault = false) →
      AliasStore.ReachableUniqueIds (s.updateAliasInfo aliasId updates)

/-- Invariant carried along the operations: cached ids are pairwise distinct and at
most one cached alias is flagged default. -/
def UniqueIdsOneDefault (l : List Alias) : Prop :=
  (l.map (fun a => a.id)).Nodup ∧ AtMostOneDefault l

/-- Alias `B` as the server sends it when it is not the default. -/
def aliasB0 : Alias := { aliasB with isDefault := false }

/-- Store caching `[A(default), B]` with `A` as current alias. -/
def storeWithAB : AliasStore :=
  { AliasStore.initial with
      aliases := [aliasA, aliasB0], currentAlias := some (AliasRef.cached 0) }

/-- Successful response of the create endpoint carrying `data`. -/
def okAlias (data : Alias) : Outcome Alias :=
  .ok { success := true, data := data, message := "" }

/-- Page `{records: [email 7], current: 2, size: 20, total: 21}`. -/
def samplePage : EmailPage :=
  { records := [{ id := 7, isRead := false, isImportant := false, subject := "new" }]
    current := 2
    size := 20
    total := 21 }

/-- Alias with the id of `A` and the address of `B`. -/
def aliasA2 : Alias := { aliasB0 with id := 1 }

/-- Store caching two aliases with id 1, `[A, A2]`, with `A` as current alias. -/
def duplicateIdStore : AliasStore :=
  { AliasStore.initial with
      aliases := [aliasA, aliasA2], currentAlias := some (AliasRef.cached 0) }

/-- A call of one of the operations exposed by the email store (the methods returned at
lines 383-404), with its arguments and with what the gateway answered. -/
inductive EmailCall where
  | fetchEmails (outcome : Outcome EmailPage)
  | fetchEmailDetail (outcome : Outcome Email)
  | sendEmail (outcome : Outcome Unit)
  | markAsRead (emailId : Nat) (outcome : Outcome Unit)
  | markAsImportant (emailId : Nat) (important : Bool) (outcome : Outcome Unit)
  | deleteEmail (emailId : Nat) (outcome : Outcome Unit)
  | batchMarkEmails (emailIds : List Nat) (action value : String) (outcome : Outcome Unit)
  | syncEmails (outcome : Outcome Unit)
  | fetchNewEmails (outcome : Outcome (Option (List Email)))
  | fetchEmailStats (outcome : Outcome EmailStatsPatch)
  | fetchUnreadCounts (outcome : Outcome (List (Nat × Int)))
  | replyEmail (outcome : Outcome Unit)
  | forwardEmail (outcome : Outcome Unit)
  | fetchEmailAttachments (outcome : Outcome (List String))
  | downloadAttachment (outcome : Outcome Unit)
  | uploadAttachment (outcome : Outcome Unit)
  | searchEmails (outcome : Outcome EmailPage)
  | clearEmails
  | updateEmailStatus (emailId : Nat) (updates : EmailPatch)
  | addEmail (email : Email)
  | removeEmail (emailId : Nat)

/-- State of the store after a call. -/
def EmailStore.perform (s : EmailStore) : EmailCall → EmailStore
  | .fetchEmails outcome => (s.fetchEmails outcome).1
  | .fetchEmailDetail outcome => (s.fetchEmailDetail outcome).1
  | .sendEmail outcome => (s.sendEmail outcome).1
  | .markAsRead emailId outcome => (s.markAsRead emailId outcome).1
  | .markAsImportant emailId important outcome =>
    (s.markAsImportant emailId important outcome).1
  | .deleteEmail emailId outcome => (s.deleteEmail emailId outcome).1
  | .batchMarkEmails emailIds action value outcome =>
    (s.batchMarkEmails emailIds action value outcome).1
  | .syncEmails outcome => (s.syncEmails outcome).1
  | .fetchNewEmails outcome => (s.fetchNewEmails outcome).1
  | .fetchEmailStats outcome => (s.fetchEmailStats outcome).1
  | .fetchUnreadCounts outcome => (s.fetchUnreadCounts outcome).1
  | .replyEmail outcome => (s.replyEmail outcome).1
  | .forwardEmail outcome => (s.forwardEmail outcome).1
  | .fetchEmailAttachments outcome => (s.fetchEmailAttachments outcome).1
  | .downloadAttachment outcome => (s.downloadAttachment outcome).1
  | .uploadAttachment outcome => (s.uploadAttachment outcome).1
  | .searchEmails outcome => (s.searchEmails outcome).1
  | .clearEmails => s.clearEmails
  | .updateEmailStatus emailId updates => s.updateEmailStatus emailId updates
  | .addEmail email => s.addEmail email
  | .removeEmail emailId => s.removeEmail emailId

/-- A gateway outcome on which the operations write the cache: an envelope with
`success = true`. -/
def Outcome.succeeded {δ : Type} : Outcome δ → Bool
  | .error _ => false
  | .ok response => response.success

/-- Slot holding, after `findIndex(e => e.id === emailId)` and `splice(index, 1)`, the
object that slot `i` held: the removed slot holds nothing, later slots move down. -/
def spliceSlot (emails : List Email) (emailId : Nat) (i : Nat) : Option Nat :=
  match findIndex (fun e => e.id == emailId) emails with
  | some index => if i = index then none else if index < i then some (i - 1) else some i
  | none => some i

/-- Slot holding, after one `forEach` step of `batchMarkEmails`, the object that slot `i`
held: only the "delete" action moves objects. -/
def batchStepSlot (action : String) (s : EmailStore) (emailId : Nat) (i : Nat) : Option Nat :=
  if action = "delete" then spliceSlot s.emails emailId i else some i

/-- Slot of the window holding, after the call, the very object that slot `i` held before
the call, `none` when the window no longer holds it: an assignment to `emails.value`
installs an array of other objects, `splice(index, 1)` moves the later slots down,
`unshift` moves every slot up, every other write mutates the objects where they are. -/
def EmailStore.slotAfter (s : EmailStore) (call : EmailCall) (i : Nat) : Option Nat :=
  match call with
  | .fetchEmails outcome => if outcome.succeeded then none else some i
  | .searchEmails outcome => if outcome.succeeded then none else some i
  | .clearEmails => none
  | .deleteEmail emailId outcome =>
    if outcome.succeeded then spliceSlot s.emails emailId i else some i
  | .removeEmail emailId => spliceSlot s.emails emailId i
  | .batchMarkEmails emailIds action value outcome =>
    if outcome.succeeded then
      (emailIds.foldl
        (fun (acc : EmailStore × Option Nat) emailId =>
          (EmailStore.batchStep action value acc.1 emailId,
            acc.2.bind (batchStepSlot action acc.1 emailId)))
        (s, some i)).2
    else some i
  | .addEmail _ => some (i + 1)
  | _ => some i

/-- Slot `i` of the window holds an email that is read. -/
def ReadAt (emails : List Email) (i : Nat) : Prop :=
  ∃ e, emails[i]? = some e ∧ e.isRead = true

/-- Unread email 9, as a push channel would inject it. -/
def pushedEmail : Email :=
  { id := 9, isRead := false, isImportant := false, subject := "pushed" }

/-- The three counters `totalCount`, `unreadCount` and `importantCount` are not negative. -/
def EmailStats.NonNegative (st : EmailStats) : Prop :=
  0 ≤ st.totalCount ∧ 0 ≤ st.unreadCount ∧ 0 ≤ st.importantCount

/-- States reachable from `s0` by `markAsRead`, `markAsImportant`, `deleteEmail`,
`batchMarkEmails`, `addEmail`, `removeEmail` and `clearEmails`, with arbitrary arguments
and arbitrary gateway outcomes. -/
inductive EmailStore.CountersReachable (s0 : EmailStore) : EmailStore → Prop
  | start : EmailStore.CountersReachable s0 s0
  | markAsRead {s : EmailStore} (emailId : Nat) (outcome : Outcome Unit) :
      EmailStore.CountersReachable s0 s →
      EmailStore.CountersReachable s0 (s.markAsRead emailId outcome).1
  | markAsImportant {s : EmailStore} (emailId : Nat) (important : Bool)
      (outcome : Outcome Unit) :
      EmailStore.CountersReachable s0 s →
      EmailStore.CountersReachable s0 (s.markAsImportant emailId important outcome).1
  | deleteEmail {s : EmailStore} (emailId : Nat) (outcome : Outcome Unit) :
      EmailStore.CountersReachable s0 s →
      EmailStore.CountersReachable s0 (s.deleteEmail emailId outcome).1
  | batchMarkEmails {s : EmailStore} (emailIds : List Nat) (action value : String)
      (outcome : Outcome Unit) :
      EmailStore.CountersReachable s0 s →
      EmailStore.CountersReachable s0 (s.batchMarkEmails emailIds action value outcome).1
  | addEmail {s : EmailStore} (email : Email) :
      EmailStore.CountersReachable s0 s → EmailStore.CountersReachable s0 (s.addEmail email)
  | removeEmail {s : EmailStore} (emailId : Nat) :
      EmailStore.CountersReachable s0 s →
      EmailStore.CountersReachable s0 (s.removeEmail emailId)
  | clearEmails {s : EmailStore} :
      EmailStore.CountersReachable s0 s → EmailStore.CountersReachable s0 s.clearEmails

/-- `totalCount` equals the number of emails in the window. -/
def EmailStore.TotalTracksWindow (s : EmailStore) : Prop :=
  s.emailStats.totalCount = (s.emails.length : Int)

/-- Largest integer below which every integer is a double, `Number.MAX_SAFE_INTEGER`
(`2^53 - 1`): a counter up to it is incremented exactly by `+= 1`. -/
def maxSafeInteger : Int := 9007199254740991

/-- The window of `readWindow` after the server reported `totalCount = 2^53`. -/
def roundingWindow : EmailStore :=
  { readWindow with
      emailStats := { readWindow.emailStats with totalCount := 9007199254740992 } }

/-- Window `[email 1 (read), email 2 (unread)]` whose `totalCount` is 2. -/
def trackedWindow : EmailStore :=
  { EmailStore.initial with
      emails := [{ id := 1, isRead := true, isImportant := false, subject := "one" },
                 { id := 2, isRead := false, isImportant := true, subject := "two" }]
      emailStats := { totalCount := 2, unreadCount := 1, importantCount := 1, todayCount := 0 } }

/-- Store whose statistics table holds one record, for alias 1. -/
def statsStore : AliasStore :=
  { AliasStore.initial with
      aliasStats := [{ aliasId := 1, emailCount := some 10, unreadCount := some 2 }] }

/-! ## Lemmas on the helpers -/

theorem findIndex_split {α : Type} (p : α → Bool) (pre : List α) (x : α) (post : List α)
    (hpre : ∀ y ∈ pre, p y = false) (hx : p x = true) :
    findIndex p (pre ++ x :: post) = some pre.length := by
  induction pre with
  | nil => simp [findIndex, hx]
  | cons y ys ih =>
    have hy : p y = false := hpre y (List.mem_cons_self _ _)
    have := ih (fun z hz => hpre z (List.mem_cons_of_mem _ hz))
    simp [findIndex, hy, this]

theorem findIndex_none {α : Type} (p : α → Bool) (l : List α)
    (h : ∀ y ∈ l, p y = false) : findIndex p l = none := by
  induction l with
  | nil => rfl
  | cons y ys ih =>
    have hy : p y = false := h y (List.mem_cons_self _ _)
    have := ih (fun z hz => h z (List.mem_cons_of_mem _ hz))
    simp [findIndex, hy, this]

theorem findIndex_some_split {α : Type} (p : α → Bool) (l : List α) (i : Nat)
    (h : findIndex p l = some i) :
    ∃ pre x post, l = pre ++ x :: post ∧ pre.length = i ∧ p x = true ∧
      ∀ y ∈ pre, p y = false := by
  induction l generalizing i with
  | nil => simp [findIndex] at h
  | cons y ys ih =>
    by_cases hy : p y = true
    · simp [findIndex, hy] at h
      exact ⟨[], y, ys, rfl, by simp [h], hy, by simp⟩
    · have hy' : p y = false := by simpa using hy
      simp only [findIndex, hy', Bool.false_eq_true, if_false, Option.map_eq_some'] at h
      obtain ⟨j, hj, rfl⟩ := h
      obtain ⟨pre, x, post, hl, hlen, hx, hpre⟩ := ih j hj
      refine ⟨y :: pre, x, post, by simp [hl], by simp [hlen], hx, ?_⟩
      intro z hz
      rcases List.mem_cons.mp hz with rfl | hz
      · exact hy'
      · exact hpre z hz

theorem findIndex_none_forall {α : Type} (p : α → Bool) (l : List α)
    (h : findIndex p l = none) : ∀ y ∈ l, p y = false := by
  induction l with
  | nil => simp
  | cons y ys ih =>
    by_cases hy : p y = true
    · simp [findIndex, hy] at h
    · have hy' : p y = false := by simpa using hy
      simp only [findIndex, hy', Bool.false_eq_true, if_false, Option.map_eq_none'] at h
      intro z hz
      rcases List.mem_cons.mp hz with rfl | hz
      · exact hy'
      · exact ih h z hz

theorem updateAt_split {α : Type} (f : α → α) (pre : List α) (x : α) (post : List α) :
    updateAt (pre ++ x :: post) pre.length f = pre ++ f x :: post := by
  induction pre with
  | nil => rfl
  | cons y ys ih => simp [updateAt, ih]

theorem eraseIdx_split {α : Type} (pre : List α) (x : α) (post : List α) :
    (pre ++ x :: post).eraseIdx pre.length = pre ++ post := by
  induction pre with
  | nil => rfl
  | cons y ys ih => simp [List.eraseIdx, ih]

theorem getElem?_split {α : Type} (pre : List α) (x : α) (post : List α) :
    (pre ++ x :: post)[pre.length]? = some x := by
  induction pre with
  | nil => simp
  | cons y ys ih => simpa using ih

theorem find?_split {α : Type} (p : α → Bool) (pre : List α) (x : α) (post : List α)
    (hpre : ∀ y ∈ pre, p y = false) (hx : p x = true) :
    (pre ++ x :: post).find? p = some x := by
  induction pre with
  | nil => simp [hx]
  | cons y ys ih =>
    have hy : p y = false := hpre y (List.mem_cons_self _ _)
    have := ih (fun z hz => hpre z (List.mem_cons_of_mem _ hz))
    simp [List.find?, hy, this]

theorem batchStep_read_hit (value : String) (s : EmailStore) (emailId : Nat)
    (pre : List Email) (e : Email) (post : List Email)
    (hw : s.emails = pre ++ e :: post) (hpre : ∀ x ∈ pre, x.id ≠ emailId)
    (hid : e.id = emailId) (hunread : e.isRead = false) :
    EmailStore.batchStep "read" value s emailId =
      { s with
          emails := pre ++ { e with isRead := true } :: post
          emailStats :=
            { s.emailStats with unreadCount := max 0 (s.emailStats.unreadCount - 1) } } := by
  have hfi : findIndex (fun x : Email => x.id == emailId) (pre ++ e :: post)
      = some pre.length :=
    findIndex_split _ pre e post (fun y hy => by simpa using hpre y hy) (by simpa using hid)
  simp only [EmailStore.batchStep, hw, hfi, getElem?_split, updateAt_split]
  simp [hunread]

theorem batchStep_read_miss (value : String) (s : EmailStore) (emailId : Nat)
    (h : ∀ x ∈ s.emails, x.id = emailId → x.isRead = true) :
    EmailStore.batchStep "read" value s emailId = s := by
  cases hfi : findIndex (fun x : Email => x.id == emailId) s.emails with
  | none => simp [EmailStore.batchStep, hfi]
  | some i =>
    obtain ⟨pre, x, post, hl, hlen, hx, _⟩ := findIndex_some_split _ _ _ hfi
    have hxr : x.isRead = true := h x (by simp [hl]) (by simpa using hx)
    have hget := getElem?_split pre x post
    rw [← hl, hlen] at hget
    simp only [EmailStore.batchStep, hfi, hget]
    simp [hxr]

theorem clamp_step (u : Int) (k : Nat) :
    (if k = 0 then max 0 (u - 1) else max 0 (max 0 (u - 1) - (k : Int)))
      = max 0 (u - ((k + 1 : Nat) : Int)) := by
  by_cases hk : k = 0
  · subst hk
    simp
  · simp only [hk, if_false]
    rcases le_total (u - 1) 0 with h | h
    · rw [max_eq_left h, max_eq_left (by omega), max_eq_left (by push_cast; omega)]
    · rw [max_eq_right h]
      push_cast
      congr 1
      omega

theorem unreadHits_cons_miss (s : EmailStore) (emailId : Nat) (rest : List Nat)
    (h : ¬ ∃ e ∈ s.emails, e.id = emailId ∧ e.isRead = false) :
    s.unreadHits (emailId :: rest) = s.unreadHits rest := by
  unfold EmailStore.unreadHits
  rw [List.toFinset_cons, Finset.filter_insert, if_neg h]

theorem unreadHits_cons_hit (s s1 : EmailStore) (emailId : Nat) (rest : List Nat)
    (h : ∃ e ∈ s.emails, e.id = emailId ∧ e.isRead = false)
    (h1 : ∀ j, (∃ e ∈ s1.emails, e.id = j ∧ e.isRead = false) ↔
      ((∃ e ∈ s.emails, e.id = j ∧ e.isRead = false) ∧ j ≠ emailId)) :
    s.unreadHits (emailId :: rest) = s1.unreadHits rest + 1 := by
  unfold EmailStore.unreadHits
  have hfilter : rest.toFinset.filter (fun i => ∃ e ∈ s1.emails, e.id = i ∧ e.isRead = false)
      = (rest.toFinset.filter (fun i => ∃ e ∈ s.emails, e.id = i ∧ e.isRead = false)).erase
          emailId := by
    ext j
    simp only [Finset.mem_filter, Finset.mem_erase, h1 j]
    tauto
  rw [List.toFinset_cons, Finset.filter_insert, if_pos h, hfilter,
    ← Finset.erase_insert_eq_erase _ emailId,
    Finset.card_erase_add_one (Finset.mem_insert_self _ _)]


theorem batchStep_read_fold (value : String) (ids : List Nat) :
    ∀ s : EmailStore, (s.emails.map (fun e => e.id)).Nodup →
      (ids.foldl (EmailStore.batchStep "read" value) s).emailStats.unreadCount
        = (if s.unreadHits ids = 0 then s.emailStats.unreadCount
           else max 0 (s.emailStats.unreadCount - (s.unreadHits ids : Int))) := by
  induction ids with
  | nil => intro s _; simp [EmailStore.unreadHits]
  | cons emailId rest ih =>
    intro s hu
    rw [List.foldl_cons]
    by_cases hP : ∃ e ∈ s.emails, e.id = emailId ∧ e.isRead = false
    · obtain ⟨e, he, hid, hunread⟩ := hP
      obtain ⟨pre, post, hw⟩ := List.append_of_mem he
      have hu' := hu
      rw [hw, List.map_append, List.map_cons, List.nodup_append] at hu'
      obtain ⟨_, hnd, hdisj⟩ := hu'
      have hpre : ∀ x ∈ pre, x.id ≠ emailId := by
        intro x hx hxe
        exact hdisj (List.mem_map_of_mem _ hx) (by simp [hxe, hid])
      have hpost : ∀ x ∈ post, x.id ≠ emailId := by
        intro x hx hxe
        have := (List.nodup_cons.mp hnd).1
        exact this (by rw [hid, ← hxe]; exact List.mem_map_of_mem _ hx)
      have hstep := batchStep_read_hit value s emailId pre e post hw hpre hid hunread
      rw [hstep]
      have hu1 : (((pre ++ { e with isRead := true } :: post).map (fun x => x.id))).Nodup := by
        simpa [hw] using hu
      have h1 : ∀ j, (∃ x ∈ pre ++ { e with isRead := true } :: post,
            x.id = j ∧ x.isRead = false) ↔
          ((∃ x ∈ s.emails, x.id = j ∧ x.isRead = false) ∧ j ≠ emailId) := by
        intro j
        rw [hw]
        constructor
        · rintro ⟨x, hx, hxj, hxr⟩
          rcases List.mem_append.mp hx with hx | hx
          · exact ⟨⟨x, by simp [hx], hxj, hxr⟩, by rw [← hxj]; exact hpre x hx⟩
          · rcases List.mem_cons.mp hx with rfl | hx
            · simp at hxr
            · exact ⟨⟨x, by simp [hx], hxj, hxr⟩, by rw [← hxj]; exact hpost x hx⟩
        · rintro ⟨⟨x, hx, hxj, hxr⟩, hj⟩
          rcases List.mem_append.mp hx with hx | hx
          · exact ⟨x, by simp [hx], hxj, hxr⟩
          · rcases List.mem_cons.mp hx with rfl | hx
            · exact absurd (hxj.symm.trans hid) hj
            · exact ⟨x, by simp [hx], hxj, hxr⟩
      have hk := unreadHits_cons_hit s
        { s with
            emails := pre ++ { e with isRead := true } :: post
            emailStats :=
              { s.emailStats with unreadCount := max 0 (s.emailStats.unreadCount - 1) } }
        emailId rest ⟨e, he, hid, hunread⟩ h1
      rw [ih _ hu1, hk]
      simp only [Nat.succ_ne_zero, if_false]
      exact clamp_step _ _
    · have hmiss : ∀ x ∈ s.emails, x.id = emailId → x.isRead = true := by
        intro x hx hxe
        by_contra hr
        exact hP ⟨x, hx, hxe, by simpa using hr⟩
      rw [batchStep_read_miss value s emailId hmiss, ih s hu,
        unreadHits_cons_miss s emailId rest hP]

/-! ## Lemmas on the alias cache -/

theorem split_of_getElem? {α : Type} (l : List α) (j : Nat) (c : α) (h : l[j]? = some c) :
    ∃ pre post, l = pre ++ c :: post ∧ pre.length = j := by
  induction l generalizing j with
  | nil => simp at h
  | cons x xs ih =>
    cases j with
    | zero =>
      simp at h
      exact ⟨[], xs, by simp [h], rfl⟩
    | succ j =>
      simp at h
      obtain ⟨pre, post, hl, hlen⟩ := ih j h
      exact ⟨x :: pre, post, by simp [hl], by simp [hlen]⟩

theorem mem_updateAt {α : Type} (l : List α) (j : Nat) (f : α → α) (a : α)
    (h : a ∈ updateAt l j f) : a ∈ l ∨ ∃ c, l[j]? = some c ∧ a = f c := by
  induction l generalizing j with
  | nil => simp [updateAt] at h
  | cons x xs ih =>
    cases j with
    | zero =>
      simp only [updateAt, List.mem_cons] at h
      rcases h with h | h
      · exact Or.inr ⟨x, by simp, h⟩
      · exact Or.inl (List.mem_cons_of_mem _ h)
    | succ j =>
      simp only [updateAt, List.mem_cons] at h
      rcases h with h | h
      · exact Or.inl (by simp [h])
      · rcases ih j h with h | ⟨c, hc, hac⟩
        · exact Or.inl (List.mem_cons_of_mem _ h)
        · exact Or.inr ⟨c, by simpa using hc, hac⟩

theorem markDefault_ids (aliasId : Nat) (l : List Alias) :
    (AliasStore.markDefault aliasId l).map (fun a => a.id) = l.map (fun a => a.id) := by
  simp [AliasStore.markDefault, List.map_map, Function.comp_def]

theorem markDefault_count (aliasId : Nat) (l : List Alias)
    (hu : (l.map (fun a => a.id)).Nodup) :
    (AliasStore.markDefault aliasId l).countP (fun a => a.isDefault) ≤ 1 ∧
    (aliasId ∉ l.map (fun a => a.id) →
      (AliasStore.markDefault aliasId l).countP (fun a => a.isDefault) = 0) := by
  induction l with
  | nil => simp [AliasStore.markDefault]
  | cons x xs ih =>
    rw [List.map_cons, List.nodup_cons] at hu
    obtain ⟨h1, h2⟩ := ih hu.2
    by_cases hx : x.id = aliasId
    · have hnot : aliasId ∉ xs.map (fun a => a.id) := hx ▸ hu.1
      have h0 := h2 hnot
      simp only [AliasStore.markDefault] at h0 ⊢
      simp [List.countP_cons, hx, h0]
    · simp only [AliasStore.markDefault] at h1 h2 ⊢
      refine ⟨by simpa [List.countP_cons, hx] using h1, ?_⟩
      intro hnot
      have hnot' : aliasId ∉ xs.map (fun a => a.id) := by
        intro hmem
        exact hnot (by simp only [List.map_cons]; exact List.mem_cons_of_mem _ hmem)
      simpa [List.countP_cons, hx] using h2 hnot'

theorem inv_markDefault (aliasId : Nat) (l : List Alias)
    (hu : (l.map (fun a => a.id)).Nodup) :
    UniqueIdsOneDefault (AliasStore.markDefault aliasId l) :=
  ⟨by rw [markDefault_ids]; exact hu, (markDefault_count aliasId l hu).1⟩

theorem inv_eraseIdx (l : List Alias) (i : Nat) (h : UniqueIdsOneDefault l) :
    UniqueIdsOneDefault (l.eraseIdx i) := by
  have hsub : (l.eraseIdx i).Sublist l := List.eraseIdx_sublist l i
  exact ⟨h.1.sublist (hsub.map _), le_trans (hsub.countP_le _) h.2⟩

theorem inv_append_singleton (l : List Alias) (x : Alias) (h : UniqueIdsOneDefault l)
    (hfresh : x.id ∉ l.map (fun a => a.id))
    (hdef : x.isDefault = true → ∀ a ∈ l, a.isDefault = false) :
    UniqueIdsOneDefault (l ++ [x]) := by
  constructor
  · rw [List.map_append, List.map_singleton]
    exact List.Nodup.append h.1 (List.nodup_singleton _) (by simpa using hfresh)
  · unfold AtMostOneDefault
    rw [List.countP_append]
    cases hx : x.isDefault with
    | false =>
      have := h.2
      unfold AtMostOneDefault at this
      simpa [List.countP_cons, hx] using this
    | true =>
      have h0 : l.countP (fun a => a.isDefault) = 0 :=
        List.countP_eq_zero.mpr (fun a ha => by simp [hdef hx a ha])
      simp [List.countP_cons, hx, h0]

theorem inv_updateAt (l : List Alias) (j : Nat) (c : Alias) (f : Alias → Alias)
    (h : UniqueIdsOneDefault l) (hc : l[j]? = some c) (hid : (f c).id = c.id)
    (hdef : (f c).isDefault = true →
      c.isDefault = true ∨ ∀ a ∈ l, a.id ≠ c.id → a.isDefault = false) :
    UniqueIdsOneDefault (updateAt l j f) := by
  obtain ⟨pre, post, hl, hlen⟩ := split_of_getElem? l j c hc
  subst hlen
  subst hl
  rw [updateAt_split]
  obtain ⟨hu, hone⟩ := h
  unfold AtMostOneDefault at hone
  constructor
  · simpa [hid] using hu
  · unfold AtMostOneDefault
    cases hfc : (f c).isDefault with
    | false =>
      have : (pre ++ f c :: post).countP (fun a => a.isDefault)
          ≤ (pre ++ c :: post).countP (fun a => a.isDefault) := by
        simp only [List.countP_append, List.countP_cons, hfc]
        simp
      exact le_trans this hone
    | true =>
      rcases hdef hfc with hcd | hothers
      · have : (pre ++ f c :: post).countP (fun a => a.isDefault)
            = (pre ++ c :: post).countP (fun a => a.isDefault) := by
          simp [List.countP_append, List.countP_cons, hfc, hcd]
        rw [this]
        exact hone
      · rw [List.map_append, List.map_cons, List.nodup_append] at hu
        obtain ⟨_, hnd, hdisj⟩ := hu
        have hpre : pre.countP (fun a => a.isDefault) = 0 :=
          List.countP_eq_zero.mpr (fun a ha => by
            have hne : a.id ≠ c.id := fun he =>
              hdisj (List.mem_map_of_mem _ ha) (by simp [he])
            simp [hothers a (by simp [ha]) hne])
        have hpost : post.countP (fun a => a.isDefault) = 0 :=
          List.countP_eq_zero.mpr (fun a ha => by
            have hne : a.id ≠ c.id := fun he =>
              (List.nodup_cons.mp hnd).1 (by rw [← he]; exact List.mem_map_of_mem _ ha)
            simp [hothers a (by simp [ha]) hne])
        simp [List.countP_append, List.countP_cons, hfc, hpre, hpost]

theorem assign_id (c : Alias) (p : AliasPatch) (aliasId : Nat) (hc : c.id = aliasId)
    (hp : p.id = none ∨ p.id = some aliasId) : (c.assign p).id = c.id := by
  rcases hp with hp | hp <;> simp [Alias.assign, hp, hc]

theorem inv_fetchAliases (s : AliasStore) (outcome : Outcome (List Alias))
    (h : UniqueIdsOneDefault s.aliases)
    (hc : outcome.onSuccess
      (fun data => (data.map (fun a => a.id)).Nodup ∧ AtMostOneDefault data)) :
    UniqueIdsOneDefault (s.fetchAliases outcome).1.aliases := by
  cases outcome with
  | error err => simpa [AliasStore.fetchAliases] using h
  | ok response =>
    by_cases hs : response.success = true
    · have := hc hs
      simpa [AliasStore.fetchAliases, hs] using this
    · simpa [AliasStore.fetchAliases, hs] using h

theorem inv_createAlias (s : AliasStore) (outcome : Outcome Alias)
    (h : UniqueIdsOneDefault s.aliases)
    (hc : outcome.onSuccess (fun data => data.id ∉ s.aliases.map (fun a => a.id) ∧
      (data.isDefault = true → ∀ a ∈ s.aliases, a.isDefault = false))) :
    UniqueIdsOneDefault (s.createAlias outcome).1.aliases := by
  cases outcome with
  | error err => simpa [AliasStore.createAlias] using h
  | ok response =>
    by_cases hs : response.success = true
    · obtain ⟨hfresh, hdef⟩ := hc hs
      have := inv_append_singleton s.aliases response.data h hfresh hdef
      simpa [AliasStore.createAlias, hs] using this
    · simpa [AliasStore.createAlias, hs] using h

theorem inv_updateAlias {δ : Type} (s : AliasStore) (aliasId : Nat) (aliasData : AliasPatch)
    (outcome : Outcome δ) (h : UniqueIdsOneDefault s.aliases)
    (hp : aliasData.id = none ∨ aliasData.id = some aliasId) :
    UniqueIdsOneDefault (s.updateAlias aliasId aliasData outcome).1.aliases := by
  cases outcome with
  | error err => simpa [AliasStore.updateAlias] using h
  | ok response =>
    by_cases hs : response.success = true
    · cases hfi : findIndex (fun a : Alias => a.id == aliasId) s.aliases with
      | none => simpa [AliasStore.updateAlias, hs, hfi] using h
      | some index =>
        obtain ⟨pre, c, post, hl, hlen, hcid, _⟩ := findIndex_some_split _ _ _ hfi
        have hcid' : c.id = aliasId := by simpa using hcid
        have hget : s.aliases[index]? = some c := by
          rw [hl, ← hlen]; exact getElem?_split pre c post
        by_cases hd : aliasData.isDefault = some true
        · have hget1 : (AliasStore.markDefault aliasId s.aliases)[index]?
              = some { c with isDefault := true } := by
            simp [AliasStore.markDefault, List.getElem?_map, hget, hcid']
          have := inv_updateAt (AliasStore.markDefault aliasId s.aliases) index
            { c with isDefault := true } (fun a => a.assign aliasData)
            (inv_markDefault aliasId s.aliases h.1) hget1
            (assign_id _ aliasData aliasId hcid' hp) (fun _ => Or.inl rfl)
          simpa [AliasStore.updateAlias, hs, hfi, hd] using this
        · have := inv_updateAt s.aliases index c (fun a => a.assign aliasData) h hget
            (assign_id c aliasData aliasId hcid' hp)
            (fun hdef => Or.inl (by
              cases hpd : aliasData.isDefault with
              | none => simpa [Alias.assign, hpd] using hdef
              | some b =>
                cases b with
                | true => exact absurd hpd hd
                | false => simp [Alias.assign, hpd] at hdef))
          simpa [AliasStore.updateAlias, hs, hfi, hd] using this
    · simpa [AliasStore.updateAlias, hs] using h

theorem inv_deleteAlias {δ : Type} (s : AliasStore) (aliasId : Nat) (outcome : Outcome δ)
    (h : UniqueIdsOneDefault s.aliases) :
    UniqueIdsOneDefault (s.deleteAlias aliasId outcome).1.aliases := by
  cases outcome with
  | error err => simpa [AliasStore.deleteAlias] using h
  | ok response =>
    by_cases hs : response.success = true
    · cases hfi : findIndex (fun a : Alias => a.id == aliasId) s.aliases with
      | none => simpa [AliasStore.deleteAlias, hs, hfi] using h
      | some index =>
        simpa [AliasStore.deleteAlias, hs, hfi] using inv_eraseIdx s.aliases index h
    · simpa [AliasStore.deleteAlias, hs] using h

theorem inv_removeAlias (s : AliasStore) (aliasId : Nat)
    (h : UniqueIdsOneDefault s.aliases) :
    UniqueIdsOneDefault (s.removeAlias aliasId).aliases := by
  cases hfi : findIndex (fun a : Alias => a.id == aliasId) s.aliases with
  | none => simpa [AliasStore.removeAlias, hfi] using h
  | some index => simpa [AliasStore.removeAlias, hfi] using inv_eraseIdx s.aliases index h

theorem inv_setDefaultAlias {δ : Type} (s : AliasStore) (aliasId : Nat) (outcome : Outcome δ)
    (h : UniqueIdsOneDefault s.aliases) :
    UniqueIdsOneDefault (s.setDefaultAlias aliasId outcome).1.aliases := by
  cases outcome with
  | error err => simpa [AliasStore.setDefaultAlias] using h
  | ok response =>
    by_cases hs : response.success = true
    · simpa [AliasStore.setDefaultAlias, hs] using inv_markDefault aliasId s.aliases h.1
    · simpa [AliasStore.setDefaultAlias, hs] using h

theorem inv_addAlias (s : AliasStore) (newAlias : Alias)
    (h : UniqueIdsOneDefault s.aliases)
    (hfresh : newAlias.id ∉ s.aliases.map (fun a => a.id)) :
    UniqueIdsOneDefault (s.addAlias newAlias).aliases := by
  cases hd : newAlias.isDefault with
  | false =>
    have := inv_append_singleton s.aliases newAlias h hfresh (fun hx => by simp [hd] at hx)
    by_cases hnil : s.aliases = []
    · simpa [AliasStore.addAlias, hd, hnil] using this
    · simpa [AliasStore.addAlias, hd, hnil] using this
  | true =>
    have hmap : (s.aliases ++ [newAlias]).map
          (fun a => if a.id != newAlias.id then { a with isDefault := false } else a)
        = s.aliases.map (fun a => { a with isDefault := false }) ++ [newAlias] := by
      rw [List.map_append]
      congr 1
      · apply List.map_congr_left
        intro a ha
        have hne : a.id ≠ newAlias.id := fun he =>
          hfresh (by rw [← he]; exact List.mem_map_of_mem _ ha)
        simp [hne]
      · simp
    have hcleared :
        UniqueIdsOneDefault (s.aliases.map (fun a => { a with isDefault := false })) := by
      constructor
      · simpa [List.map_map, Function.comp_def] using h.1
      · unfold AtMostOneDefault
        have : (s.aliases.map (fun a => { a with isDefault := false })).countP
            (fun a => a.isDefault) = 0 :=
          List.countP_eq_zero.mpr (fun a ha => by
            obtain ⟨b, _, rfl⟩ := List.mem_map.mp ha
            simp)
        omega
    have := inv_append_singleton _ newAlias hcleared
      (by simpa [List.map_map, Function.comp_def] using hfresh)
      (fun _ a ha => by
        obtain ⟨b, _, rfl⟩ := List.mem_map.mp ha
        rfl)
    simp only [AliasStore.addAlias, hd, Bool.or_true, if_true, hmap]
    exact this

theorem inv_updateAliasInfo (s : AliasStore) (aliasId : Nat) (updates : AliasPatch)
    (h : UniqueIdsOneDefault s.aliases)
    (hp : updates.id = none ∨ updates.id = some aliasId)
    (hg : updates.isDefault = some true →
      ∀ a ∈ s.aliases, a.id ≠ aliasId → a.isDefault = false) :
    UniqueIdsOneDefault (s.updateAliasInfo aliasId updates).aliases := by
  have hstep : ∀ (l : List Alias) (j : Nat) (c : Alias), UniqueIdsOneDefault l →
      l[j]? = some c → c.id = aliasId →
      (updates.isDefault = some true → ∀ a ∈ l, a.id ≠ aliasId → a.isDefault = false) →
      UniqueIdsOneDefault (updateAt l j (fun a => a.assign updates)) := by
    intro l j c hl hc hcid hgl
    refine inv_updateAt l j c _ hl hc (assign_id c updates aliasId hcid hp) ?_
    intro hdef
    cases hpd : updates.isDefault with
    | none => exact Or.inl (by simpa [Alias.assign, hpd] using hdef)
    | some b =>
      cases b with
      | true => exact Or.inr (by rw [hcid]; exact hgl hpd)
      | false => simp [Alias.assign, hpd] at hdef
  cases hfi : findIndex (fun a : Alias => a.id == aliasId) s.aliases with
  | none => simpa [AliasStore.updateAliasInfo, hfi] using h
  | some i =>
    obtain ⟨pre, c, post, hl, hlen, hcid, _⟩ := findIndex_some_split _ _ _ hfi
    have hcid' : c.id = aliasId := by simpa using hcid
    have hget : s.aliases[i]? = some c := by
      rw [hl, ← hlen]; exact getElem?_split pre c post
    have h1 := hstep s.aliases i c h hget hcid' hg
    have hg1 : updates.isDefault = some true →
        ∀ a ∈ updateAt s.aliases i (fun a => a.assign updates),
          a.id ≠ aliasId → a.isDefault = false := by
      intro hpd a ha hne
      rcases mem_updateAt _ _ _ _ ha with ha | ⟨c', hc', rfl⟩
      · exact hg hpd a ha hne
      · rw [hget] at hc'
        cases hc'
        exact absurd ((assign_id c updates aliasId hcid' hp).trans hcid') hne
    simp only [AliasStore.updateAliasInfo, hfi]
    cases hcur : s.currentAlias with
    | none => simpa using h1
    | some r =>
      cases r with
      | detached a =>
        simp only [AliasStore.deref]
        split <;> simpa using h1
      | cached j =>
        simp only [AliasStore.deref]
        cases hj : (updateAt s.aliases i (fun a => a.assign updates))[j]? with
        | none => simpa using h1
        | some c2 =>
          by_cases hc2 : c2.id = aliasId
          · simpa [hc2] using hstep _ j c2 h1 hj hc2 hg1
          · simpa [hc2] using h1

/-- Every state reachable under the side conditions keeps ids unique and at most one
default. -/
theorem reachableUniqueIds_inv (s : AliasStore) (h : AliasStore.ReachableUniqueIds s) :
    UniqueIdsOneDefault s.aliases := by
  induction h with
  | initial =>
    exact ⟨by simp [AliasStore.initial], by simp [AliasStore.initial, AtMostOneDefault]⟩
  | fetchAliases outcome _ hc ih => exact inv_fetchAliases _ outcome ih hc
  | createAlias outcome _ hc ih => exact inv_createAlias _ outcome ih hc
  | updateAlias aliasId aliasData outcome _ hp ih =>
    exact inv_updateAlias _ aliasId aliasData outcome ih hp
  | deleteAlias aliasId outcome _ ih => exact inv_deleteAlias _ aliasId outcome ih
  | setDefaultAlias aliasId outcome _ ih => exact inv_setDefaultAlias _ aliasId outcome ih
  | addAlias newAlias _ hfresh ih => exact inv_addAlias _ newAlias ih hfresh
  | removeAlias aliasId _ ih => exact inv_removeAlias _ aliasId ih
  | updateAliasInfo aliasId updates _ hp hg ih =>
    exact inv_updateAliasInfo _ aliasId updates ih hp hg

/-! ## Lemmas for the single-alias operations -/

theorem nodup_split_ne {α : Type} (f : α → Nat) (pre : List α) (c : α) (post : List α)
    (hu : ((pre ++ c :: post).map f).Nodup) :
    (∀ x ∈ pre, f x ≠ f c) ∧ (∀ x ∈ post, f x ≠ f c) := by
  rw [List.map_append, List.map_cons, List.nodup_append] at hu
  obtain ⟨_, hnd, hdisj⟩ := hu
  constructor
  · intro x hx he
    exact hdisj (List.mem_map_of_mem _ hx) (by simp [he])
  · intro x hx he
    exact (List.nodup_cons.mp hnd).1 (by rw [← he]; exact List.mem_map_of_mem _ hx)

theorem markDefault_split (aliasId : Nat) (pre : List Alias) (c : Alias) (post : List Alias)
    (hu : ((pre ++ c :: post).map (fun a => a.id)).Nodup) (hid : c.id = aliasId) :
    AliasStore.markDefault aliasId (pre ++ c :: post)
      = pre.map (fun a => { a with isDefault := false })
        ++ { c with isDefault := true }
          :: post.map (fun a => { a with isDefault := false }) := by
  obtain ⟨hpre, hpost⟩ := nodup_split_ne (fun a : Alias => a.id) pre c post hu
  simp only [AliasStore.markDefault, List.map_append, List.map_cons]
  congr 1
  · apply List.map_congr_left
    intro a ha
    have : a.id ≠ aliasId := hid ▸ hpre a ha
    simp [this]
  · congr 1
    · simp [hid]
    · apply List.map_congr_left
      intro a ha
      have : a.id ≠ aliasId := hid ▸ hpost a ha
      simp [this]

theorem findIndex_cleared_split (aliasId : Nat) (pre : List Alias) (c : Alias)
    (post : List Alias) (hu : ((pre ++ c :: post).map (fun a => a.id)).Nodup)
    (hid : c.id = aliasId) (rest : List Alias) (c' : Alias) (hid' : c'.id = aliasId) :
    findIndex (fun a : Alias => a.id == aliasId)
        (pre.map (fun a => { a with isDefault := false }) ++ c' :: rest)
      = some pre.length := by
  obtain ⟨hpre, _⟩ := nodup_split_ne (fun a : Alias => a.id) pre c post hu
  have := findIndex_split (fun a : Alias => a.id == aliasId)
    (pre.map (fun a => { a with isDefault := false })) c' rest
    (fun y hy => by
      obtain ⟨b, hb, rfl⟩ := List.mem_map.mp hy
      have : b.id ≠ aliasId := hid ▸ hpre b hb
      simpa using this)
    (by simpa using hid')
  simpa using this

/-! ## Lemmas on the slots of the window -/

theorem getElem?_updateAt {α : Type} (l : List α) (k : Nat) (f : α → α) (i : Nat) :
    (updateAt l k f)[i]? = (l[i]?).map (fun x => if i = k then f x else x) := by
  induction l generalizing k i with
  | nil => simp [updateAt]
  | cons x xs ih =>
    cases k with
    | zero =>
      cases i with
      | zero => simp [updateAt]
      | succ i =>
        simp only [updateAt, List.getElem?_cons_succ]
        cases xs[i]? <;> simp
    | succ k =>
      cases i with
      | zero => simp [updateAt]
      | succ i =>
        simp only [updateAt, List.getElem?_cons_succ, ih k i]
        cases xs[i]? <;> simp

theorem readAt_updateAt (l : List Email) (k : Nat) (f : Email → Email) (i : Nat)
    (hf : ∀ x : Email, x.isRead = true → (f x).isRead = true) (h : ReadAt l i) :
    ReadAt (updateAt l k f) i := by
  obtain ⟨e, he, hr⟩ := h
  by_cases hik : i = k
  · subst hik
    exact ⟨f e, by simp [getElem?_updateAt, he], hf e hr⟩
  · exact ⟨e, by simp [getElem?_updateAt, he, hik], hr⟩

theorem readAt_splice (l : List Email) (emailId : Nat) (i j index : Nat)
    (hfi : findIndex (fun e : Email => e.id == emailId) l = some index)
    (hj : spliceSlot l emailId i = some j) (h : ReadAt l i) :
    ReadAt (l.eraseIdx index) j := by
  obtain ⟨e, he, hr⟩ := h
  refine ⟨e, ?_, hr⟩
  simp only [spliceSlot, hfi] at hj
  by_cases h1 : i = index
  · simp [h1] at hj
  · by_cases h2 : index < i
    · simp only [h1, h2, if_true, if_false, Option.some.injEq] at hj
      subst hj
      rw [List.getElem?_eraseIdx]
      have h3 : ¬ (i - 1 < index) := by omega
      have h4 : i - 1 + 1 = i := by omega
      simp only [h3, if_false, h4]
      exact he
    · simp only [h1, h2, if_false, Option.some.injEq] at hj
      subst hj
      rw [List.getElem?_eraseIdx]
      have h3 : i < index := by omega
      simp only [h3, if_true]
      exact he

theorem spliceSlot_none_found (l : List Email) (emailId : Nat) (i j : Nat)
    (hfi : findIndex (fun e : Email => e.id == emailId) l = none)
    (hj : spliceSlot l emailId i = some j) : j = i := by
  simp only [spliceSlot, hfi, Option.some.injEq] at hj
  exact hj.symm

theorem findIndex_getElem? {α : Type} (p : α → Bool) (l : List α) (index : Nat)
    (h : findIndex p l = some index) : ∃ x, l[index]? = some x ∧ p x = true := by
  obtain ⟨pre, x, post, hl, hlen, hx, _⟩ := findIndex_some_split p l index h
  exact ⟨x, by rw [hl, ← hlen]; exact getElem?_split pre x post, hx⟩

theorem readAt_batchStep (action value : String) (s : EmailStore) (emailId : Nat)
    (i j : Nat) (hj : batchStepSlot action s emailId i = some j) (h : ReadAt s.emails i) :
    ReadAt (EmailStore.batchStep action value s emailId).emails j := by
  cases hfi : findIndex (fun e : Email => e.id == emailId) s.emails with
  | none =>
    have hji : j = i := by
      by_cases ha : action = "delete"
      · simp only [batchStepSlot, ha, if_true] at hj
        exact spliceSlot_none_found _ _ _ _ hfi hj
      · simp only [batchStepSlot, ha, if_false, Option.some.injEq] at hj
        exact hj.symm
    subst hji
    simpa [EmailStore.batchStep, hfi] using h
  | some index =>
    obtain ⟨email, hget, _⟩ := findIndex_getElem? _ _ _ hfi
    by_cases hread : action = "read"
    · have hji : j = i := by
        simp only [batchStepSlot, hread] at hj
        simpa using hj.symm
      subst hji
      simp only [EmailStore.batchStep, hfi, hget, hread, if_true]
      split
      · exact readAt_updateAt _ _ _ _ (fun _ _ => rfl) h
      · exact h
    · by_cases himp : action = "important"
      · have hji : j = i := by
          simp only [batchStepSlot, himp] at hj
          simpa using hj.symm
        subst hji
        simp only [EmailStore.batchStep, hfi, hget, himp]
        simp only [show ¬ ("important" = "read") by decide, if_false, if_true]
        split
        · exact readAt_updateAt _ _ _ _ (fun _ hx => hx) h
        · exact h
      · by_cases hdel : action = "delete"
        · simp only [batchStepSlot, hdel, if_true] at hj
          simp only [EmailStore.batchStep, hfi, hget, hdel]
          simp only [show ¬ ("delete" = "read") by decide,
            show ¬ ("delete" = "important") by decide, if_false, if_true]
          exact readAt_splice _ _ _ _ _ hfi hj h
        · have hji : j = i := by
            simp only [batchStepSlot, hdel, if_false, Option.some.injEq] at hj
            exact hj.symm
          subst hji
          simpa [EmailStore.batchStep, hfi, hget, hread, himp, hdel] using h

theorem readAt_batch_fold (action value : String) (ids : List Nat) :
    ∀ (s : EmailStore) (o : Option Nat), (∀ i, o = some i → ReadAt s.emails i) →
      (ids.foldl
          (fun (acc : EmailStore × Option Nat) emailId =>
            (EmailStore.batchStep action value acc.1 emailId,
              acc.2.bind (batchStepSlot action acc.1 emailId)))
          (s, o)).1 = ids.foldl (EmailStore.batchStep action value) s ∧
      ∀ j,
        (ids.foldl
          (fun (acc : EmailStore × Option Nat) emailId =>
            (EmailStore.batchStep action value acc.1 emailId,
              acc.2.bind (batchStepSlot action acc.1 emailId)))
          (s, o)).2 = some j →
        ReadAt (ids.foldl (EmailStore.batchStep action value) s).emails j := by
  induction ids with
  | nil =>
    intro s o h
    exact ⟨rfl, fun j hj => h j hj⟩
  | cons emailId rest ih =>
    intro s o h
    simp only [List.foldl_cons]
    apply ih
    intro i hi
    cases o with
    | none => simp at hi
    | some i0 => exact readAt_batchStep action value s emailId i0 i (by simpa using hi) (h i0 rfl)

theorem readAt_spliced (s : EmailStore) (emailId i j : Nat)
    (hj : spliceSlot s.emails emailId i = some j) (h : ReadAt s.emails i) :
    ReadAt
      (match findIndex (fun e : Email => e.id == emailId) s.emails with
        | some index => s.emails.eraseIdx index
        | none => s.emails) j := by
  cases hfi : findIndex (fun e : Email => e.id == emailId) s.emails with
  | none =>
    have := spliceSlot_none_found _ _ _ _ hfi hj
    subst this
    exact h
  | some index => exact readAt_splice _ _ _ _ _ hfi hj h

theorem deleteEmail_emails {δ : Type} (s : EmailStore) (emailId : Nat)
    (response : Envelope δ) (hs : response.success = true) :
    (s.deleteEmail emailId (.ok response)).1.emails
      = (match findIndex (fun e : Email => e.id == emailId) s.emails with
          | some index => s.emails.eraseIdx index
          | none => s.emails) := by
  cases hfi : findIndex (fun e : Email => e.id == emailId) s.emails with
  | none => simp [EmailStore.deleteEmail, hs, hfi]
  | some index =>
    obtain ⟨email, hget, _⟩ := findIndex_getElem? _ _ _ hfi
    simp only [EmailStore.deleteEmail, hs, hfi, hget, if_true]

theorem removeEmail_emails (s : EmailStore) (emailId : Nat) :
    (s.removeEmail emailId).emails
      = (match findIndex (fun e : Email => e.id == emailId) s.emails with
          | some index => s.emails.eraseIdx index
          | none => s.emails) := by
  have hcur : ∀ s1 : EmailStore,
      (match s1.currentEmail with
        | some c => if (c.id == emailId) = true then { s1 with currentEmail := none } else s1
        | none => s1).emails = s1.emails := by
    intro s1
    cases s1.currentEmail with
    | none => rfl
    | some c => by_cases h : (c.id == emailId) = true <;> simp [h]
  unfold EmailStore.removeEmail
  simp only [hcur]
  cases hfi : findIndex (fun e : Email => e.id == emailId) s.emails with
  | none => rfl
  | some index =>
    obtain ⟨email, hget, _⟩ := findIndex_getElem? _ _ _ hfi
    simp only [hget]

/-! ## The increment of a counter -/

theorem jsAddOne_exact (n : Int) (h1 : -9007199254740992 ≤ n) (h2 : n < 9007199254740992) :
    jsAddOne n = n + 1 := by
  simp [jsAddOne, h1, h2]

theorem jsAddOne_nonneg (n : Int) (h : 0 ≤ n) : 0 ≤ jsAddOne n := by
  unfold jsAddOne
  split
  · omega
  · split
    · split <;> omega
    · exact h

theorem jsAddOne_length (n : Nat) (h : n < maxArrayLength) :
    jsAddOne (n : Int) = (n : Int) + 1 := by
  unfold maxArrayLength at h
  exact jsAddOne_exact _ (by omega) (by omega)

/-! ## Lemmas on the counters -/

theorem nonNegative_batchStep (action value : String) (s : EmailStore) (emailId : Nat)
    (h : s.emailStats.NonNegative) :
    (EmailStore.batchStep action value s emailId).emailStats.NonNegative := by
  have h' := h
  unfold EmailStats.NonNegative at h' ⊢
  cases hfi : findIndex (fun e : Email => e.id == emailId) s.emails with
  | none => simpa [EmailStore.batchStep, hfi] using h'
  | some i =>
    cases hget : s.emails[i]? with
    | none => simpa [EmailStore.batchStep, hfi, hget] using h'
    | some email =>
      by_cases hr : action = "read"
      · subst hr
        cases hrd : email.isRead <;>
          simp [EmailStore.batchStep, hfi, hget, hrd] <;> omega
      · by_cases hi : action = "important"
        · subst hi
          have hj := jsAddOne_nonneg _ h'.2.2
          cases him : email.isImportant <;> by_cases hv : value = "true" <;>
            simp [EmailStore.batchStep, hfi, hget, him, hv] <;> omega
        · by_cases hd : action = "delete"
          · subst hd
            cases hrd : email.isRead <;> cases him : email.isImportant <;>
              simp [EmailStore.batchStep, hfi, hget, hrd, him] <;> omega
          · simpa [EmailStore.batchStep, hfi, hget, hr, hi, hd] using h'

theorem nonNegative_batch_fold (action value : String) (ids : List Nat) :
    ∀ s : EmailStore, s.emailStats.NonNegative →
      (ids.foldl (EmailStore.batchStep action value) s).emailStats.NonNegative := by
  induction ids with
  | nil => intro s h; exact h
  | cons emailId rest ih =>
    intro s h
    exact ih _ (nonNegative_batchStep action value s emailId h)

theorem nonNegative_markAsRead {δ : Type} (s : EmailStore) (emailId : Nat)
    (outcome : Outcome δ) (h : s.emailStats.NonNegative) :
    (s.markAsRead emailId outcome).1.emailStats.NonNegative := by
  have h' := h
  unfold EmailStats.NonNegative at h' ⊢
  cases outcome with
  | error err => exact h'
  | ok response =>
    cases hs : response.success <;> simp [EmailStore.markAsRead, hs] <;> omega

theorem nonNegative_markAsImportant {δ : Type} (s : EmailStore) (emailId : Nat)
    (important : Bool) (outcome : Outcome δ) (h : s.emailStats.NonNegative) :
    (s.markAsImportant emailId important outcome).1.emailStats.NonNegative := by
  have h' := h
  unfold EmailStats.NonNegative at h' ⊢
  cases outcome with
  | error err => exact h'
  | ok response =>
    have hj := jsAddOne_nonneg _ h'.2.2
    cases hs : response.success <;> cases important <;>
      simp [EmailStore.markAsImportant, hs] <;> omega

theorem nonNegative_deleteEmail {δ : Type} (s : EmailStore) (emailId : Nat)
    (outcome : Outcome δ) (h : s.emailStats.NonNegative) :
    (s.deleteEmail emailId outcome).1.emailStats.NonNegative := by
  have h' := h
  unfold EmailStats.NonNegative at h' ⊢
  cases outcome with
  | error err => exact h'
  | ok response =>
    cases hs : response.success with
    | false => simpa [EmailStore.deleteEmail, hs] using h'
    | true =>
      cases hfi : findIndex (fun e : Email => e.id == emailId) s.emails with
      | none => simpa [EmailStore.deleteEmail, hs, hfi] using h'
      | some i =>
        cases hget : s.emails[i]? with
        | none => simpa [EmailStore.deleteEmail, hs, hfi, hget] using h'
        | some email =>
          cases hrd : email.isRead <;> cases him : email.isImportant <;>
            simp [EmailStore.deleteEmail, hs, hfi, hget, hrd, him] <;> omega

theorem nonNegative_batchMarkEmails {δ : Type} (s : EmailStore) (emailIds : List Nat)
    (action value : String) (outcome : Outcome δ) (h : s.emailStats.NonNegative) :
    (s.batchMarkEmails emailIds action value outcome).1.emailStats.NonNegative := by
  cases outcome with
  | error err => exact h
  | ok response =>
    cases hs : response.success with
    | false => simpa [EmailStore.batchMarkEmails, hs] using h
    | true =>
      simpa [EmailStore.batchMarkEmails, hs] using
        nonNegative_batch_fold action value emailIds s h

theorem nonNegative_addEmail (s : EmailStore) (email : Email)
    (h : s.emailStats.NonNegative) : (s.addEmail email).emailStats.NonNegative := by
  have h' := h
  unfold EmailStats.NonNegative at h' ⊢
  have hj1 := jsAddOne_nonneg _ h'.1
  have hj2 := jsAddOne_nonneg _ h'.2.1
  have hj3 := jsAddOne_nonneg _ h'.2.2
  by_cases hlen : s.emails.length < maxArrayLength <;>
    cases hrd : email.isRead <;> cases him : email.isImportant <;>
    simp [EmailStore.addEmail, hrd, him, hlen] <;> omega

theorem nonNegative_removeEmail (s : EmailStore) (emailId : Nat)
    (h : s.emailStats.NonNegative) : (s.removeEmail emailId).emailStats.NonNegative := by
  have h' := h
  unfold EmailStats.NonNegative at h' ⊢
  have hcur : ∀ s1 : EmailStore,
      (match s1.currentEmail with
        | some c => if (c.id == emailId) = true then { s1 with currentEmail := none } else s1
        | none => s1).emailStats = s1.emailStats := by
    intro s1
    cases s1.currentEmail with
    | none => rfl
    | some c => by_cases hc : (c.id == emailId) = true <;> simp [hc]
  unfold EmailStore.removeEmail
  simp only [hcur]
  cases hfi : findIndex (fun e : Email => e.id == emailId) s.emails with
  | none => simpa using h'
  | some i =>
    cases hget : s.emails[i]? with
    | none => simpa [hget] using h'
    | some email =>
      cases hrd : email.isRead <;> cases him : email.isImportant <;>
        simp [hget, hrd, him] <;> omega

theorem nonNegative_reachable (s0 s : EmailStore) (h0 : s0.emailStats.NonNegative)
    (h : EmailStore.CountersReachable s0 s) : s.emailStats.NonNegative := by
  induction h with
  | start => exact h0
  | markAsRead emailId outcome _ ih => exact nonNegative_markAsRead _ emailId outcome ih
  | markAsImportant emailId important outcome _ ih =>
    exact nonNegative_markAsImportant _ emailId important outcome ih
  | deleteEmail emailId outcome _ ih => exact nonNegative_deleteEmail _ emailId outcome ih
  | batchMarkEmails emailIds action value outcome _ ih =>
    exact nonNegative_batchMarkEmails _ emailIds action value outcome ih
  | addEmail email _ ih => exact nonNegative_addEmail _ email ih
  | removeEmail emailId _ ih => exact nonNegative_removeEmail _ emailId ih
  | clearEmails _ _ => exact ⟨le_refl _, le_refl _, le_refl _⟩

theorem length_updateAt {α : Type} (l : List α) (k : Nat) (f : α → α) :
    (updateAt l k f).length = l.length := by
  induction l generalizing k with
  | nil => rfl
  | cons x xs ih => cases k <;> simp [updateAt, ih]

theorem getElem?_some_lt {α : Type} (l : List α) (i : Nat) (x : α) (h : l[i]? = some x) :
    i < l.length := by
  by_contra hge
  rw [List.getElem?_eq_none (by omega)] at h
  cases h

theorem tracks_erase (s : EmailStore) (i : Nat) (email : Email)
    (h : s.emailStats.totalCount = (s.emails.length : Int))
    (hget : s.emails[i]? = some email) :
    max 0 (s.emailStats.totalCount - 1) = ((s.emails.eraseIdx i).length : Int) := by
  have hlt := getElem?_some_lt _ _ _ hget
  rw [List.length_eraseIdx_of_lt hlt, h]
  omega

theorem tracks_batchStep (action value : String) (s : EmailStore) (emailId : Nat)
    (h : s.TotalTracksWindow) :
    (EmailStore.batchStep action value s emailId).TotalTracksWindow := by
  have h' := h
  unfold EmailStore.TotalTracksWindow at h' ⊢
  cases hfi : findIndex (fun e : Email => e.id == emailId) s.emails with
  | none => simpa [EmailStore.batchStep, hfi] using h'
  | some i =>
    cases hget : s.emails[i]? with
    | none => simpa [EmailStore.batchStep, hfi, hget] using h'
    | some email =>
      have herase := tracks_erase s i email h' hget
      by_cases hr : action = "read"
      · subst hr
        cases hrd : email.isRead <;>
          simp [EmailStore.batchStep, hfi, hget, hrd, length_updateAt, h']
      · by_cases hi : action = "important"
        · subst hi
          cases him : email.isImportant <;> by_cases hv : value = "true" <;>
            simp [EmailStore.batchStep, hfi, hget, him, hv, length_updateAt, h']
        · by_cases hd : action = "delete"
          · subst hd
            cases hrd : email.isRead <;> cases him : email.isImportant <;>
              simpa [EmailStore.batchStep, hfi, hget, hrd, him] using herase
          · simpa [EmailStore.batchStep, hfi, hget, hr, hi, hd] using h'

theorem tracks_batch_fold (action value : String) (ids : List Nat) :
    ∀ s : EmailStore, s.TotalTracksWindow →
      (ids.foldl (EmailStore.batchStep action value) s).TotalTracksWindow := by
  induction ids with
  | nil => intro s h; exact h
  | cons emailId rest ih =>
    intro s h
    exact ih _ (tracks_batchStep action value s emailId h)

theorem tracks_deleteEmail {δ : Type} (s : EmailStore) (emailId : Nat)
    (response : Envelope δ) (hs : response.success = true) (h : s.TotalTracksWindow) :
    (s.deleteEmail emailId (.ok response)).1.TotalTracksWindow := by
  have h' := h
  unfold EmailStore.TotalTracksWindow at h' ⊢
  cases hfi : findIndex (fun e : Email => e.id == emailId) s.emails with
  | none => simpa [EmailStore.deleteEmail, hs, hfi] using h'
  | some i =>
    cases hget : s.emails[i]? with
    | none => simpa [EmailStore.deleteEmail, hs, hfi, hget] using h'
    | some email =>
      have herase := tracks_erase s i email h' hget
      cases hrd : email.isRead <;> cases him : email.isImportant <;>
        simpa [EmailStore.deleteEmail, hs, hfi, hget, hrd, him] using herase

theorem tracks_removeEmail (s : EmailStore) (emailId : Nat) (h : s.TotalTracksWindow) :
    (s.removeEmail emailId).TotalTracksWindow := by
  have h' := h
  unfold EmailStore.TotalTracksWindow at h' ⊢
  have hcur : ∀ s1 : EmailStore,
      (match s1.currentEmail with
        | some c => if (c.id == emailId) = true then { s1 with currentEmail := none } else s1
        | none => s1).emailStats = s1.emailStats ∧
      (match s1.currentEmail with
        | some c => if (c.id == emailId) = true then { s1 with currentEmail := none } else s1
        | none => s1).emails = s1.emails := by
    intro s1
    cases s1.currentEmail with
    | none => exact ⟨rfl, rfl⟩
    | some c => by_cases hc : (c.id == emailId) = true <;> simp [hc]
  unfold EmailStore.removeEmail
  simp only [(hcur _).1, (hcur _).2]
  cases hfi : findIndex (fun e : Email => e.id == emailId) s.emails with
  | none => simpa using h'
  | some i =>
    cases hget : s.emails[i]? with
    | none => simpa [hget] using h'
    | some email =>
      have herase := tracks_erase s i email h' hget
      cases hrd : email.isRead <;> cases him : email.isImportant <;>
        simpa [hget, hrd, him] using herase

/-! ## Lemmas on `validatePlatformConfig` -/

/-- When `validatePlatformConfig` returns `valid = true`, the platform type and the URL are
non-empty, the platform type is a key of `PLATFORM_CONFIG_TEMPLATES`, and every required
field of its template is non-empty in the config. -/
theorem validatePlatformConfig_valid_only_if (urlParses emailMatches : String → Bool)
    (config : PlatformConfig) (r : ValidationResult)
    (h : validatePlatformConfig urlParses emailMatches config = .ok r)
    (hv : r.valid = true) :
    fieldTruthy config.platformType = true ∧ fieldTruthy config.platformUrl = true ∧
    ∃ t, PLATFORM_CONFIG_TEMPLATES.lookup (config.platformType.getD "") = some t ∧
      ∀ f ∈ t.requiredFields, fieldTruthy (config.get f) = true := by
  unfold validatePlatformConfig at h
  split at h
  · cases h; simp at hv
  · rename_i hcond
    have hcond' : fieldTruthy config.platformType = true ∧
        fieldTruthy config.platformUrl = true := by
      simpa using hcond
    refine ⟨hcond'.1, hcond'.2, ?_⟩
    unfold lookupTemplate at h
    cases hlk : PLATFORM_CONFIG_TEMPLATES.lookup (config.platformType.getD "") with
    | none =>
      rw [hlk] at h
      by_cases hm : config.platformType.getD "" ∈ objectPrototypeNames
      · simp [hm] at h
      · simp only [hm, if_false] at h
        cases h
        simp at hv
    | some t =>
      rw [hlk] at h
      refine ⟨t, rfl, ?_⟩
      simp only [] at h
      cases hfind : t.requiredFields.find? (fun field => !fieldTruthy (config.get field)) with
      | some field =>
        rw [hfind] at h
        cases h
        simp at hv
      | none =>
        intro f hf
        have := List.find?_eq_none.mp hfind f hf
        simpa using this

/-- Unless the platform type names a property inherited from `Object.prototype`,
`validatePlatformConfig` returns, and a result with `valid = false` carries a message. -/
theorem validatePlatformConfig_returns (urlParses emailMatches : String → Bool)
    (config : PlatformConfig)
    (hkey : config.platformType.getD "" ∉ objectPrototypeNames) :
    ∃ r, validatePlatformConfig urlParses emailMatches config = .ok r ∧
      (r.valid = false → r.message ≠ none) := by
  unfold validatePlatformConfig
  split
  · exact ⟨_, rfl, by simp⟩
  · unfold lookupTemplate
    cases hlk : PLATFORM_CONFIG_TEMPLATES.lookup (config.platformType.getD "") with
    | none =>
      simp only [hkey, if_false]
      exact ⟨_, rfl, by simp⟩
    | some t =>
      simp only []
      cases hfind : t.requiredFields.find? (fun field => !fieldTruthy (config.get field)) with
      | some field => exact ⟨_, rfl, by simp⟩
      | none =>
        simp only []
        split
        · exact ⟨_, rfl, by simp⟩
        · split
          · exact ⟨_, rfl, by simp⟩
          · exact ⟨_, rfl, by simp⟩

/-! ## The default flag across the alias store's operations -/

/-- C1, as stated, fails: from the initial store, a successful `fetchAliases` whose
response is `[A, B]` with both flagged default caches two defaults; so does a
successful `createAlias` returning the default `B` after `addAlias(A)`; so does
`updateAliasInfo(2, {isDefault: true})` after `addAlias(A)` and `addAlias(B')`; and so
does a successful `setDefaultAlias(1)` after `fetchAliases` answered two aliases that
both carry id 1. -/
theorem two_defaults_reachable_counterexample :
    (AliasStore.Reachable (AliasStore.initial.fetchAliases (okAliases [aliasA, aliasB])).1 ∧
      ¬ AtMostOneDefault
        (AliasStore.initial.fetchAliases (okAliases [aliasA, aliasB])).1.aliases) ∧
    (AliasStore.Reachable
        ((AliasStore.initial.addAlias aliasA).createAlias
          (.ok { success := true, data := aliasB, message := "" })).1 ∧
      ¬ AtMostOneDefault
        ((AliasStore.initial.addAlias aliasA).createAlias
          (.ok { success := true, data := aliasB, message := "" })).1.aliases) ∧
    (AliasStore.Reachable
        (((AliasStore.initial.addAlias aliasA).addAlias
          { aliasB with isDefault := false }).updateAliasInfo 2 { isDefault := some true }) ∧
      ¬ AtMostOneDefault
        (((AliasStore.initial.addAlias aliasA).addAlias
          { aliasB with isDefault := false }).updateAliasInfo 2
            { isDefault := some true }).aliases) ∧
    (AliasStore.Reachable
        ((AliasStore.initial.fetchAliases
          (okAliases [{ aliasA with isDefault := false },
            { aliasB with id := 1, isDefault := false }])).1.setDefaultAlias 1 okUnit).1 ∧
      ¬ AtMostOneDefault
        ((AliasStore.initial.fetchAliases
          (okAliases [{ aliasA with isDefault := false },
            { aliasB with id := 1, isDefault := false }])).1.setDefaultAlias 1 okUnit).1.aliases) :=
  ⟨⟨AliasStore.Reachable.fetchAliases _ AliasStore.Reachable.initial, by decide⟩,
   ⟨AliasStore.Reachable.createAlias _
      (AliasStore.Reachable.addAlias _ AliasStore.Reachable.initial), by decide⟩,
   ⟨AliasStore.Reachable.updateAliasInfo _ _
      (AliasStore.Reachable.addAlias _
        (AliasStore.Reachable.addAlias _ AliasStore.Reachable.initial)), by decide⟩,
   ⟨AliasStore.Reachable.setDefaultAlias _ _
      (AliasStore.Reachable.fetchAliases _ AliasStore.Reachable.initial), by decide⟩⟩

/-- C1, amended: in every state reachable from the initial store by `fetchAliases`,
`createAlias`, `updateAlias`, `deleteAlias`, `setDefaultAlias`, `addAlias`,
`removeAlias` and `updateAliasInfo` (gateway calls succeeding or failing), at most one
cached alias has `isDefault = true`, provided that fetched lists have pairwise distinct
ids and at most one default, that entities returned by `createAlias` or given to
`addAlias` have an id not yet cached, that an entity returned by `createAlias` is not
flagged default while a cached alias is, that patches do not change the id, and that
`updateAliasInfo` does not set `isDefault` while another cached alias is default. -/
theorem reachable_at_most_one_default (s : AliasStore)
    (h : AliasStore.ReachableUniqueIds s) : AtMostOneDefault s.aliases :=
  (reachableUniqueIds_inv s h).2

/-- Witness of C1 (amended): `fetchAliases` answering `[A(default), B]`, then
`setDefaultAlias(2)`, then `addAlias` of a default alias with id 3. -/
theorem reachable_at_most_one_default_witness :
    AtMostOneDefault
      ((((AliasStore.initial.fetchAliases
            (okAliases [aliasA, { aliasB with isDefault := false }])).1.setDefaultAlias
          2 okUnit).1.addAlias
        { id := 3, address := "c@example.com", domainId := 1, isDefault := true,
          createdAt := 0 }).aliases) :=
  reachable_at_most_one_default _
    (AliasStore.ReachableUniqueIds.addAlias _
      (AliasStore.ReachableUniqueIds.setDefaultAlias 2 okUnit
        (AliasStore.ReachableUniqueIds.fetchAliases
          (okAliases [aliasA, { aliasB with isDefault := false }])
          AliasStore.ReachableUniqueIds.initial
          (fun _ => ⟨by decide, by decide⟩)))
      (by decide))

/-! ## `markAsRead`, `markAsImportant` and the batch operation on flags already set -/

/-- C2: a successful `markAsRead(1)` on the window whose email 1 is already read takes
`unreadCount` from 3 to 2, and a second successful `markAsRead(1)` takes it to 1: the
counter is decremented on every call, two calls change it by 2. -/
theorem markAsRead_decrements_when_already_read :
    readWindow.emails.map (fun e => (e.id, e.isRead)) = [(1, true)] ∧
    readWindow.emailStats.unreadCount = 3 ∧
    (readWindow.markAsRead 1 okUnit).1.emailStats.unreadCount = 2 ∧
    (((readWindow.markAsRead 1 okUnit).1.markAsRead 1 okUnit).1.emailStats.unreadCount) = 1 := by
  decide

/-- C4: a successful `markAsImportant(1, true)` on the window whose email 1 is already
important leaves the flag as it was and takes `importantCount` from 1 to 2. -/
theorem markAsImportant_counts_when_flag_unchanged :
    readWindow.emails.map (fun e => (e.id, e.isImportant)) = [(1, true)] ∧
    (readWindow.markAsImportant 1 true okUnit).1.emails = readWindow.emails ∧
    readWindow.emailStats.importantCount = 1 ∧
    (readWindow.markAsImportant 1 true okUnit).1.emailStats.importantCount = 2 := by
  decide

/-- C7: on the window whose email 1 is already read and important, the batch operation
with `[1]` leaves `emailStats` untouched for "read" and for "important", while
`markAsRead(1)` and `markAsImportant(1, true)` change `unreadCount` and
`importantCount`; the two paths end in different `emailStats`. -/
theorem batch_differs_from_singular :
    (readWindow.batchMarkEmails [1] "read" "true" okUnit).1.emailStats = readWindow.emailStats ∧
    (readWindow.markAsRead 1 okUnit).1.emailStats ≠ readWindow.emailStats ∧
    (readWindow.batchMarkEmails [1] "important" "true" okUnit).1.emailStats
      = readWindow.emailStats ∧
    (readWindow.markAsImportant 1 true okUnit).1.emailStats ≠ readWindow.emailStats := by
  decide

/-! ## `fetchAliases` -/

/-- C10: from the store caching `[A]` with current alias `A`, a successful `fetchAliases`
whose response list is empty empties the cached sequence and leaves `currentAlias`
pointing to `A`. -/
theorem fetchAliases_empty_keeps_current :
    storeWithA.currentAliasValue = some aliasA ∧
    (storeWithA.fetchAliases (okAliases [])).1.aliases = [] ∧
    (storeWithA.fetchAliases (okAliases [])).1.currentAliasValue = some aliasA := by
  decide

/-- C9: after a successful `fetchAliases` whose response carries a non-empty list, the
cached sequence is the response list, and `currentAlias` is the first alias of the
response flagged `isDefault`, or the first alias of the response when none is flagged. -/
theorem fetchAliases_replaces_and_selects (s : AliasStore) (response : Envelope (List Alias))
    (hs : response.success = true) (hne : response.data ≠ []) :
    (s.fetchAliases (.ok response)).1.aliases = response.data ∧
    (s.fetchAliases (.ok response)).1.currentAliasValue =
      (match response.data.find? (fun a => a.isDefault) with
       | some a => some a
       | none => response.data.head?) := by
  refine ⟨by simp [AliasStore.fetchAliases, hs], ?_⟩
  cases hfi : findIndex (fun a : Alias => a.isDefault) response.data with
  | some i =>
    obtain ⟨pre, x, post, hl, hlen, hx, hpre⟩ := findIndex_some_split _ _ _ hfi
    have hfind := find?_split (fun a : Alias => a.isDefault) pre x post hpre hx
    have hget := getElem?_split pre x post
    rw [← hl] at hfind
    rw [← hl, hlen] at hget
    simp [AliasStore.fetchAliases, hs, hfi, AliasStore.currentAliasValue, AliasStore.deref,
      hfind, hget]
  | none =>
    have hall := findIndex_none_forall _ _ hfi
    have hfind : response.data.find? (fun a => a.isDefault) = none :=
      List.find?_eq_none.mpr (fun y hy => by simpa using hall y hy)
    have hpos : 0 < response.data.length := List.length_pos.mpr hne
    simp [AliasStore.fetchAliases, hs, hfi, AliasStore.currentAliasValue, AliasStore.deref,
      hfind, hpos, List.head?_eq_getElem?]

/-- Witness of C9 at the response `[B', A]`, `B'` not flagged and `A` flagged: the cache
becomes `[B', A]` and the current alias is `A`. -/
theorem fetchAliases_replaces_and_selects_witness :
    (storeWithA.fetchAliases
        (.ok { success := true, data := [{ aliasB with isDefault := false }, aliasA],
               message := "" })).1.aliases
      = [{ aliasB with isDefault := false }, aliasA] ∧
    (storeWithA.fetchAliases
        (.ok { success := true, data := [{ aliasB with isDefault := false }, aliasA],
               message := "" })).1.currentAliasValue
      = some aliasA :=
  fetchAliases_replaces_and_selects storeWithA
    { success := true, data := [{ aliasB with isDefault := false }, aliasA], message := "" }
    rfl (by decide)

/-! ## Failed gateway calls -/

/-- C8: when the gateway call is rejected or answers with `success = false`, each of
`createAlias`, `updateAlias`, `deleteAlias`, `setDefaultAlias`, `switchToAlias`,
`markAsRead`, `markAsImportant`, `deleteEmail` and `batchMarkEmails` leaves the store
state as it was and hands the failure to the caller as received: the error is thrown
again, the envelope is returned. -/
theorem failed_call_changes_nothing {δ : Type} (a : AliasStore) (e : EmailStore)
    (id : Nat) (patch : AliasPatch) (ids : List Nat) (action value : String)
    (important : Bool) (outA : Outcome Alias) (out : Outcome δ)
    (hA : outA.failed) (h : out.failed) :
    a.createAlias outA = (a, outA) ∧
    a.updateAlias id patch out = (a, out) ∧
    a.deleteAlias id out = (a, out) ∧
    a.setDefaultAlias id out = (a, out) ∧
    a.switchToAlias outA = (a, outA) ∧
    e.markAsRead id out = (e, out) ∧
    e.markAsImportant id important out = (e, out) ∧
    e.deleteEmail id out = (e, out) ∧
    e.batchMarkEmails ids action value out = (e, out) := by
  cases outA with
  | error errA =>
    cases out with
    | error err =>
      simp [AliasStore.createAlias, AliasStore.updateAlias, AliasStore.deleteAlias,
        AliasStore.setDefaultAlias, AliasStore.switchToAlias, EmailStore.markAsRead,
        EmailStore.markAsImportant, EmailStore.deleteEmail, EmailStore.batchMarkEmails]
    | ok response =>
      have hf : response.success = false := h
      simp [AliasStore.createAlias, AliasStore.updateAlias, AliasStore.deleteAlias,
        AliasStore.setDefaultAlias, AliasStore.switchToAlias, EmailStore.markAsRead,
        EmailStore.markAsImportant, EmailStore.deleteEmail, EmailStore.batchMarkEmails, hf]
  | ok responseA =>
    have hfA : responseA.success = false := hA
    cases out with
    | error err =>
      simp [AliasStore.createAlias, AliasStore.updateAlias, AliasStore.deleteAlias,
        AliasStore.setDefaultAlias, AliasStore.switchToAlias, EmailStore.markAsRead,
        EmailStore.markAsImportant, EmailStore.deleteEmail, EmailStore.batchMarkEmails, hfA]
    | ok response =>
      have hf : response.success = false := h
      simp [AliasStore.createAlias, AliasStore.updateAlias, AliasStore.deleteAlias,
        AliasStore.setDefaultAlias, AliasStore.switchToAlias, EmailStore.markAsRead,
        EmailStore.markAsImportant, EmailStore.deleteEmail, EmailStore.batchMarkEmails,
        hf, hfA]

/-- Witness of C8: a transport error on the calls that return an alias, an envelope with
`success = false` on the others, from the store caching `[A]` and the one-email window. -/
theorem failed_call_changes_nothing_witness :
    (Outcome.failed (Except.error "Network Error" : Outcome Alias) ∧
      Outcome.failed
        (Except.ok { success := false, data := (), message := "rejected" } : Outcome Unit)) ∧
    storeWithA.updateAlias 1 { isDefault := some true }
        (Except.ok { success := false, data := (), message := "rejected" } : Outcome Unit)
      = (storeWithA, Except.ok { success := false, data := (), message := "rejected" }) ∧
    readWindow.batchMarkEmails [1] "delete" "true"
        (Except.ok { success := false, data := (), message := "rejected" } : Outcome Unit)
      = (readWindow, Except.ok { success := false, data := (), message := "rejected" }) :=
  have h := failed_call_changes_nothing storeWithA readWindow 1 { isDefault := some true }
    [1] "delete" "true" true (Except.error "Network Error")
    (Except.ok { success := false, data := (), message := "rejected" } : Outcome Unit)
    trivial rfl
  ⟨⟨trivial, rfl⟩, h.2.1, h.2.2.2.2.2.2.2.2⟩

/-! ## `markAsRead` and `deleteEmail` on the email found by id -/

/-- C3, as stated, fails: the window holds an unread email with id 1 (behind a read
email with the same id), and a successful `markAsRead(1)` leaves the whole window as it
was, so that email is still unread. -/
theorem markAsRead_duplicate_id_counterexample :
    (∃ e ∈ readThenUnreadWindow.emails, e.id = 1 ∧ e.isRead = false) ∧
    (readThenUnreadWindow.markAsRead 1 okUnit).1.emails = readThenUnreadWindow.emails ∧
    (∃ e ∈ (readThenUnreadWindow.markAsRead 1 okUnit).1.emails,
      e.id = 1 ∧ e.isRead = false) := by
  decide

/-- C3, amended: when the first email of the window having the given id is `e` and `e`
is unread, a successful `markAsRead(id)` sets `isRead` of `e` to true in place, sets
`unreadCount` to `max(0, unreadCount - 1)`, and leaves every other email, the other
counters, the pagination and the rest of the state unchanged. -/
theorem markAsRead_first_match {δ : Type} (s : EmailStore) (emailId : Nat)
    (response : Envelope δ) (pre : List Email) (e : Email) (post : List Email)
    (hs : response.success = true) (hw : s.emails = pre ++ e :: post)
    (hpre : ∀ x ∈ pre, x.id ≠ emailId) (hid : e.id = emailId) (_hunread : e.isRead = false) :
    (s.markAsRead emailId (.ok response)).1.emails = pre ++ { e with isRead := true } :: post ∧
    (s.markAsRead emailId (.ok response)).1.emailStats.unreadCount
      = max 0 (s.emailStats.unreadCount - 1) ∧
    (s.markAsRead emailId (.ok response)).1.emailStats.totalCount = s.emailStats.totalCount ∧
    (s.markAsRead emailId (.ok response)).1.emailStats.importantCount
      = s.emailStats.importantCount ∧
    (s.markAsRead emailId (.ok response)).1.emailStats.todayCount = s.emailStats.todayCount ∧
    (s.markAsRead emailId (.ok response)).1.pagination = s.pagination ∧
    (s.markAsRead emailId (.ok response)).1.currentEmail = s.currentEmail ∧
    (s.markAsRead emailId (.ok response)).1.unreadCounts = s.unreadCounts := by
  have hfi : findIndex (fun x : Email => x.id == emailId) (pre ++ e :: post)
      = some pre.length :=
    findIndex_split _ pre e post (fun y hy => by simpa using hpre y hy) (by simpa using hid)
  simp [EmailStore.markAsRead, hs, hw, hfi, updateAt_split]

/-- Witness of C3 (amended) on the window `[{id: 1, isRead: false, isImportant: true}]`
with `unreadCount = 1`. -/
theorem markAsRead_first_match_witness :
    (singleUnreadWindow.markAsRead 1 okUnit).1.emails
      = [{ id := 1, isRead := true, isImportant := true, subject := "only" }] ∧
    (singleUnreadWindow.markAsRead 1 okUnit).1.emailStats.unreadCount = 0 :=
  have h := markAsRead_first_match singleUnreadWindow 1
    { success := true, data := (), message := "" } []
    { id := 1, isRead := false, isImportant := true, subject := "only" } []
    rfl rfl (by simp) rfl rfl
  ⟨h.1, h.2.1⟩

/-- C5, as stated, fails: the window holds the read, unimportant email `e` with id 1
(behind an unread, important email with the same id); after a successful
`deleteEmail(1)` the window still holds `e`, and `unreadCount` and `importantCount`
have both gone from 1 to 0 although `e` was read and not important. -/
theorem deleteEmail_duplicate_id_counterexample :
    ({ id := 1, isRead := true, isImportant := false, subject := "second" } : Email)
      ∈ unreadThenReadWindow.emails ∧
    ({ id := 1, isRead := true, isImportant := false, subject := "second" } : Email)
      ∈ (unreadThenReadWindow.deleteEmail 1 okUnit).1.emails ∧
    unreadThenReadWindow.emailStats.unreadCount = 1 ∧
    (unreadThenReadWindow.deleteEmail 1 okUnit).1.emailStats.unreadCount = 0 ∧
    unreadThenReadWindow.emailStats.importantCount = 1 ∧
    (unreadThenReadWindow.deleteEmail 1 okUnit).1.emailStats.importantCount = 0 := by
  decide

/-- C5, amended: when the first email of the window having the given id is `e`, a
successful `deleteEmail(id)` removes `e` keeping the order of the others, sets
`totalCount` to `max(0, totalCount - 1)`, decrements `unreadCount` (clamped at 0) iff
`e` was unread and `importantCount` (clamped at 0) iff `e` was important, and leaves
the rest of the state unchanged; when no email has that id the state is unchanged. -/
theorem deleteEmail_first_match {δ : Type} (s : EmailStore) (emailId : Nat)
    (response : Envelope δ) (hs : response.success = true) :
    (∀ (pre : List Email) (e : Email) (post : List Email),
      s.emails = pre ++ e :: post → (∀ x ∈ pre, x.id ≠ emailId) → e.id = emailId →
      (s.deleteEmail emailId (.ok response)).1.emails = pre ++ post ∧
      (s.deleteEmail emailId (.ok response)).1.emailStats.totalCount
        = max 0 (s.emailStats.totalCount - 1) ∧
      (s.deleteEmail emailId (.ok response)).1.emailStats.unreadCount
        = (if e.isRead = false then max 0 (s.emailStats.unreadCount - 1)
           else s.emailStats.unreadCount) ∧
      (s.deleteEmail emailId (.ok response)).1.emailStats.importantCount
        = (if e.isImportant = true then max 0 (s.emailStats.importantCount - 1)
           else s.emailStats.importantCount) ∧
      (s.deleteEmail emailId (.ok response)).1.emailStats.todayCount
        = s.emailStats.todayCount ∧
      (s.deleteEmail emailId (.ok response)).1.pagination = s.pagination ∧
      (s.deleteEmail emailId (.ok response)).1.currentEmail = s.currentEmail ∧
      (s.deleteEmail emailId (.ok response)).1.unreadCounts = s.unreadCounts) ∧
    ((∀ x ∈ s.emails, x.id ≠ emailId) → (s.deleteEmail emailId (.ok response)).1 = s) := by
  constructor
  · intro pre e post hw hpre hid
    have hfi : findIndex (fun x : Email => x.id == emailId) (pre ++ e :: post)
        = some pre.length :=
      findIndex_split _ pre e post (fun y hy => by simpa using hpre y hy) (by simpa using hid)
    simp only [EmailStore.deleteEmail, hs, hw, hfi, getElem?_split, eraseIdx_split, if_true]
    cases hr : e.isRead <;> cases hi : e.isImportant <;> simp
  · intro hall
    have hfi : findIndex (fun x : Email => x.id == emailId) s.emails = none :=
      findIndex_none _ _ (fun y hy => by simpa using hall y hy)
    simp [EmailStore.deleteEmail, hs, hfi]

/-- Witness of C5 (amended), the deletion scenario: window
`[{id: 1, isRead: false, isImportant: true}]` with stats `{1, 1, 1}` becomes window `[]`
with stats `{0, 0, 0}`. -/
theorem deleteEmail_first_match_witness :
    (singleUnreadWindow.deleteEmail 1 okUnit).1.emails = [] ∧
    (singleUnreadWindow.deleteEmail 1 okUnit).1.emailStats.totalCount = 0 ∧
    (singleUnreadWindow.deleteEmail 1 okUnit).1.emailStats.unreadCount = 0 ∧
    (singleUnreadWindow.deleteEmail 1 okUnit).1.emailStats.importantCount = 0 :=
  have h := (deleteEmail_first_match singleUnreadWindow 1
    { success := true, data := (), message := "" } rfl).1 []
    { id := 1, isRead := false, isImportant := true, subject := "only" } []
    rfl (by simp) rfl
  ⟨h.1, h.2.1, h.2.2.1, h.2.2.2.1⟩

/-! ## `batchMarkEmails` with action "read" -/

/-- C6, as stated, fails: on the empty window with `unreadCount = -1`, no id of `[7]`
identifies an unread email (`k = 0`), the successful batch call leaves `unreadCount` at
-1, while `max(0, unreadCount - k)` is 0. -/
theorem batchMarkEmails_read_negative_counterexample :
    (negativeUnreadStore.emails.map (fun e => e.id)).Nodup ∧
    negativeUnreadStore.unreadHits [7] = 0 ∧
    (negativeUnreadStore.batchMarkEmails [7] "read" "true" okUnit).1.emailStats.unreadCount
      = -1 ∧
    (negativeUnreadStore.batchMarkEmails [7] "read" "true" okUnit).1.emailStats.unreadCount
      ≠ max 0 (negativeUnreadStore.emailStats.unreadCount
          - (negativeUnreadStore.unreadHits [7] : Int)) := by
  decide

/-- C6, amended: on a window with unique email ids, a successful
`batchMarkEmails(ids, "read", value)` leaves `unreadCount` unchanged when `k = 0` and
sets it to `max(0, unreadCount - k)` when `k ≥ 1`, where `k` is the number of distinct
ids of the list identifying an unread email of the window; lists with the same set of
ids (whatever their order and duplicates) give the same `unreadCount`. -/
theorem batchMarkEmails_read_unreadCount {δ : Type} (s : EmailStore) (ids : List Nat)
    (value : String) (response : Envelope δ) (hs : response.success = true)
    (hu : (s.emails.map (fun e => e.id)).Nodup) :
    (s.batchMarkEmails ids "read" value (.ok response)).1.emailStats.unreadCount
      = (if s.unreadHits ids = 0 then s.emailStats.unreadCount
         else max 0 (s.emailStats.unreadCount - (s.unreadHits ids : Int))) ∧
    ∀ ids' : List Nat, ids'.toFinset = ids.toFinset →
      (s.batchMarkEmails ids' "read" value (.ok response)).1.emailStats.unreadCount
        = (s.batchMarkEmails ids "read" value (.ok response)).1.emailStats.unreadCount := by
  have hmain : ∀ l : List Nat,
      (s.batchMarkEmails l "read" value (.ok response)).1.emailStats.unreadCount
        = (if s.unreadHits l = 0 then s.emailStats.unreadCount
           else max 0 (s.emailStats.unreadCount - (s.unreadHits l : Int))) := by
    intro l
    simpa [EmailStore.batchMarkEmails, hs] using batchStep_read_fold value l s hu
  refine ⟨hmain ids, ?_⟩
  intro ids' hset
  have hk : s.unreadHits ids' = s.unreadHits ids := by
    simp [EmailStore.unreadHits, hset]
  rw [hmain ids', hmain ids, hk]

/-- Witness of C6 (amended): on the window holding the unread emails 1 and 2 with
`unreadCount = 5`, the list `[2, 1, 2]` has `k = 2` and the batch call gives
`unreadCount = 3`. -/
theorem batchMarkEmails_read_unreadCount_witness :
    (twoUnreadWindow.emails.map (fun e => e.id)).Nodup ∧
    twoUnreadWindow.unreadHits [2, 1, 2] = 2 ∧
    (twoUnreadWindow.batchMarkEmails [2, 1, 2] "read" "true" okUnit).1.emailStats.unreadCount
      = (if twoUnreadWindow.unreadHits [2, 1, 2] = 0 then twoUnreadWindow.emailStats.unreadCount
         else max 0 (twoUnreadWindow.emailStats.unreadCount
            - (twoUnreadWindow.unreadHits [2, 1, 2] : Int))) ∧
    (twoUnreadWindow.batchMarkEmails [2, 1, 2] "read" "true" okUnit).1.emailStats.unreadCount
      = 3 :=
  ⟨by decide, by decide,
    (batchMarkEmails_read_unreadCount twoUnreadWindow [2, 1, 2] "true"
      { success := true, data := (), message := "" } rfl (by decide)).1,
    by decide⟩

/-! ## `getDefaultAlias` after `fetchAliases` -/

/-- C11: after a successful `fetchAliases`, `getDefaultAlias()` returns the first alias of
the response flagged `isDefault`; when no alias is flagged it returns the first alias of
the response; when the response list is empty it returns nothing. -/
theorem getDefaultAlias_after_fetchAliases (s : AliasStore)
    (response : Envelope (List Alias)) (hs : response.success = true) :
    (∀ (pre : List Alias) (a : Alias) (post : List Alias),
      response.data = pre ++ a :: post → (∀ x ∈ pre, x.isDefault = false) →
      a.isDefault = true →
      (s.fetchAliases (.ok response)).1.getDefaultAlias = some a) ∧
    ((∀ x ∈ response.data, x.isDefault = false) →
      (s.fetchAliases (.ok response)).1.getDefaultAlias = response.data.head?) ∧
    (response.data = [] → (s.fetchAliases (.ok response)).1.getDefaultAlias = none) := by
  have haliases : (s.fetchAliases (.ok response)).1.aliases = response.data := by
    simp [AliasStore.fetchAliases, hs]
  refine ⟨?_, ?_, ?_⟩
  · intro pre a post hd hpre ha
    have hfind := find?_split (fun x : Alias => x.isDefault) pre a post hpre ha
    simp [AliasStore.getDefaultAlias, haliases, hd, hfind]
  · intro hall
    have hfind : response.data.find? (fun a => a.isDefault) = none :=
      List.find?_eq_none.mpr (fun y hy => by simp [hall y hy])
    simp [AliasStore.getDefaultAlias, haliases, hfind, List.head?_eq_getElem?]
  · intro hnil
    simp [AliasStore.getDefaultAlias, haliases, hnil]

/-- Witness of C11: the response `[B, A(default)]` makes `getDefaultAlias()` return `A`. -/
theorem getDefaultAlias_after_fetchAliases_witness :
    (storeWithA.fetchAliases (okAliases [aliasB0, aliasA])).1.getDefaultAlias = some aliasA :=
  (getDefaultAlias_after_fetchAliases storeWithA
    { success := true, data := [aliasB0, aliasA], message := "" } rfl).1
    [aliasB0] aliasA [] rfl (by decide) rfl

/-! ## `setDefaultAlias`, `updateAlias` and `deleteAlias` on one alias -/

/-- C12: in a cache with unique ids holding the alias `c` with the given id, a successful
`setDefaultAlias(id)` keeps every alias in its place with its other fields, sets
`isDefault` to true on `c` and to false on every other alias, and makes `c` (now
default) the current alias. -/
theorem setDefaultAlias_single_default {δ : Type} (s : AliasStore) (aliasId : Nat)
    (response : Envelope δ) (pre : List Alias) (c : Alias) (post : List Alias)
    (hs : response.success = true) (hu : (s.aliases.map (fun a => a.id)).Nodup)
    (hw : s.aliases = pre ++ c :: post) (hid : c.id = aliasId) :
    (s.setDefaultAlias aliasId (.ok response)).1.aliases
      = pre.map (fun a => { a with isDefault := false })
        ++ { c with isDefault := true }
          :: post.map (fun a => { a with isDefault := false }) ∧
    (s.setDefaultAlias aliasId (.ok response)).1.currentAliasValue
      = some { c with isDefault := true } := by
  rw [hw] at hu
  have hmark := markDefault_split aliasId pre c post hu hid
  have hfi := findIndex_cleared_split aliasId pre c post hu hid
    (post.map (fun a => { a with isDefault := false })) { c with isDefault := true } hid
  have hget := getElem?_split (pre.map (fun a => { a with isDefault := false }))
    { c with isDefault := true } (post.map (fun a => { a with isDefault := false }))
  rw [List.length_map] at hget
  simp only [AliasStore.setDefaultAlias, hs, hw, hmark, hfi, if_true,
    AliasStore.currentAliasValue, AliasStore.deref, Option.bind]
  exact ⟨trivial, hget⟩

/-- Witness of C12, the scenario `[A(default), B]` with `setDefaultAlias(B.id)`: the cache
becomes `[A(non-default), B(default)]` and the current alias is `B`. -/
theorem setDefaultAlias_single_default_witness :
    (storeWithAB.setDefaultAlias 2 okUnit).1.aliases
      = [{ aliasA with isDefault := false }, { aliasB0 with isDefault := true }] ∧
    (storeWithAB.setDefaultAlias 2 okUnit).1.currentAliasValue
      = some { aliasB0 with isDefault := true } :=
  setDefaultAlias_single_default storeWithAB 2 { success := true, data := (), message := "" }
    [aliasA] aliasB0 [] rfl (by decide) rfl rfl

/-- C13: in a cache with unique ids holding the alias `c` with the given id, a successful
`updateAlias(id, patch)` with `patch.isDefault` true turns `c` into `c` overwritten by
the patch (it carries every field of the patch, `isDefault = true` included), sets
`isDefault` to false on every other alias, and makes the target the current alias. -/
theorem updateAlias_default_patch {δ : Type} (s : AliasStore) (aliasId : Nat)
    (aliasData : AliasPatch) (response : Envelope δ) (pre : List Alias) (c : Alias)
    (post : List Alias) (hs : response.success = true)
    (hu : (s.aliases.map (fun a => a.id)).Nodup) (hw : s.aliases = pre ++ c :: post)
    (hid : c.id = aliasId) (hd : aliasData.isDefault = some true) :
    (s.updateAlias aliasId aliasData (.ok response)).1.aliases
      = pre.map (fun a => { a with isDefault := false })
        ++ c.assign aliasData :: post.map (fun a => { a with isDefault := false }) ∧
    (c.assign aliasData).isDefault = true ∧
    (∀ v, aliasData.id = some v → (c.assign aliasData).id = v) ∧
    (∀ v, aliasData.address = some v → (c.assign aliasData).address = v) ∧
    (∀ v, aliasData.domainId = some v → (c.assign aliasData).domainId = v) ∧
    (∀ v, aliasData.createdAt = some v → (c.assign aliasData).createdAt = v) ∧
    (s.updateAlias aliasId aliasData (.ok response)).1.currentAliasValue
      = some (c.assign aliasData) := by
  have hfi0 : findIndex (fun a : Alias => a.id == aliasId) (pre ++ c :: post)
      = some pre.length := by
    rw [hw] at hu
    obtain ⟨hpre, _⟩ := nodup_split_ne (fun a : Alias => a.id) pre c post hu
    exact findIndex_split _ pre c post
      (fun y hy => by have : y.id ≠ aliasId := hid ▸ hpre y hy; simpa using this)
      (by simpa using hid)
  rw [hw] at hu
  have hmark := markDefault_split aliasId pre c post hu hid
  have hupd := updateAt_split (fun a : Alias => a.assign aliasData)
    (pre.map (fun a => { a with isDefault := false })) { c with isDefault := true }
    (post.map (fun a => { a with isDefault := false }))
  rw [List.length_map] at hupd
  have hassign : ({ c with isDefault := true } : Alias).assign aliasData
      = c.assign aliasData := by
    simp [Alias.assign, hd]
  rw [hassign] at hupd
  have hget := getElem?_split (pre.map (fun a => { a with isDefault := false }))
    (c.assign aliasData) (post.map (fun a => { a with isDefault := false }))
  rw [List.length_map] at hget
  refine ⟨?_, by simp [Alias.assign, hd], ?_, ?_, ?_, ?_, ?_⟩
  · simp only [AliasStore.updateAlias, hs, hw, hfi0, hd, hmark, hupd, if_true, beq_self_eq_true]
  · intro v hv; simp [Alias.assign, hv]
  · intro v hv; simp [Alias.assign, hv]
  · intro v hv; simp [Alias.assign, hv]
  · intro v hv; simp [Alias.assign, hv]
  · simp only [AliasStore.updateAlias, hs, hw, hfi0, hd, hmark, hupd, if_true,
      beq_self_eq_true, AliasStore.currentAliasValue, AliasStore.deref, Option.bind]
    exact hget

/-- Witness of C13: `updateAlias(2, {address, isDefault: true})` on `[A(default), B]`. -/
theorem updateAlias_default_patch_witness :
    (storeWithAB.updateAlias 2 { address := some "b2@example.com", isDefault := some true }
        okUnit).1.aliases
      = [{ aliasA with isDefault := false },
         { aliasB0 with address := "b2@example.com", isDefault := true }] ∧
    (storeWithAB.updateAlias 2 { address := some "b2@example.com", isDefault := some true }
        okUnit).1.currentAliasValue
      = some { aliasB0 with address := "b2@example.com", isDefault := true } :=
  have h := updateAlias_default_patch storeWithAB 2
    { address := some "b2@example.com", isDefault := some true }
    { success := true, data := (), message := "" } [aliasA] aliasB0 [] rfl (by decide) rfl rfl rfl
  ⟨h.1, h.2.2.2.2.2.2⟩

/-- C14, as stated, fails: the cache `[A, A2]` holds the alias `A2` with id 1 (behind `A`,
which has id 1 too), and after a successful `deleteAlias(1)` the cache still holds
`A2`. -/
theorem deleteAlias_duplicate_id_counterexample :
    aliasA2 ∈ duplicateIdStore.aliases ∧ aliasA2.id = 1 ∧
    aliasA2 ∈ (duplicateIdStore.deleteAlias 1 okUnit).1.aliases := by
  decide

/-- C14, amended: when the first cached alias having the given id is `a`, a successful
`deleteAlias(id)` removes `a` and keeps the other aliases in their order; when the
current alias had that id, the current alias becomes the first remaining alias, or null
when none remain; when the current alias had another id, or was null, it is unchanged. -/
theorem deleteAlias_first_match {δ : Type} (s : AliasStore) (aliasId : Nat)
    (response : Envelope δ) (pre : List Alias) (a : Alias) (post : List Alias)
    (hs : response.success = true) (hw : s.aliases = pre ++ a :: post)
    (hpre : ∀ x ∈ pre, x.id ≠ aliasId) (hid : a.id = aliasId) :
    (s.deleteAlias aliasId (.ok response)).1.aliases = pre ++ post ∧
    (∀ c, s.currentAliasValue = some c → c.id = aliasId →
      (s.deleteAlias aliasId (.ok response)).1.currentAliasValue = (pre ++ post).head?) ∧
    (∀ c, s.currentAliasValue = some c → c.id ≠ aliasId →
      (s.deleteAlias aliasId (.ok response)).1.currentAliasValue = some c) ∧
    (s.currentAlias = none → (s.deleteAlias aliasId (.ok response)).1.currentAlias = none) := by
  have hfi : findIndex (fun x : Alias => x.id == aliasId) (pre ++ a :: post)
      = some pre.length :=
    findIndex_split _ pre a post (fun y hy => by simpa using hpre y hy) (by simpa using hid)
  have herase := eraseIdx_split pre a post
  refine ⟨?_, ?_, ?_, ?_⟩
  · simp only [AliasStore.deleteAlias, hs, hw, hfi, herase, if_true]
  · intro c hc hcid
    cases hr : s.currentAlias with
    | none => simp [AliasStore.currentAliasValue, hr] at hc
    | some r =>
      have hd : s.deref r = some c := by
        simpa [AliasStore.currentAliasValue, hr] using hc
      simp only [AliasStore.deleteAlias, hs, hw, hfi, herase, if_true, hr]
      simp only [hd, hcid, beq_self_eq_true, if_true]
      cases hl : pre ++ post with
      | nil => simp [AliasStore.currentAliasValue]
      | cons x xs => simp [AliasStore.currentAliasValue, AliasStore.deref]
  · intro c hc hcid
    cases hr : s.currentAlias with
    | none => simp [AliasStore.currentAliasValue, hr] at hc
    | some r =>
      have hd : s.deref r = some c := by
        simpa [AliasStore.currentAliasValue, hr] using hc
      have hne : (c.id == aliasId) = false := by simpa using hcid
      simp only [AliasStore.deleteAlias, hs, hw, hfi, herase, if_true, hr]
      simp only [hd, hne, Bool.false_eq_true, if_false, AliasStore.currentAliasValue,
        Option.bind]
      cases r with
      | detached obj => simpa [AliasStore.deref, AliasStore.shiftRef] using hd
      | cached j =>
        have hj : (pre ++ a :: post)[j]? = some c := by
          simpa [AliasStore.deref, hw] using hd
        have hjne : j ≠ pre.length := by
          intro he
          rw [he, getElem?_split] at hj
          cases hj
          exact hcid hid
        have hkey : (pre ++ post)[if pre.length < j then j - 1 else j]? = some c := by
          rw [← herase, List.getElem?_eraseIdx]
          by_cases hlt : pre.length < j
          · have h1 : ¬ (j - 1 < pre.length) := by omega
            have h2 : j - 1 + 1 = j := by omega
            simp only [hlt, if_true, h1, if_false, h2]
            exact hj
          · have h1 : j < pre.length := by omega
            simp only [hlt, if_false, h1, if_true]
            exact hj
        by_cases hlt : pre.length < j
        · simpa [AliasStore.shiftRef, AliasStore.deref, hlt] using hkey
        · simpa [AliasStore.shiftRef, AliasStore.deref, hlt] using hkey
  · intro hnone
    simp only [AliasStore.deleteAlias, hs, hw, hfi, herase, if_true, hnone]

/-- Witness of C14 (amended): deleting `A` from `[A(default), B]` with current alias `A`
leaves `[B]` with current alias `B`. -/
theorem deleteAlias_first_match_witness :
    (storeWithAB.deleteAlias 1 okUnit).1.aliases = [aliasB0] ∧
    (storeWithAB.deleteAlias 1 okUnit).1.currentAliasValue = some aliasB0 :=
  have h := deleteAlias_first_match storeWithAB 1 { success := true, data := (), message := "" }
    [] aliasA [aliasB0] rfl rfl (by simp) rfl
  ⟨h.1, h.2.1 aliasA (by decide) rfl⟩

/-! ## `createAlias` -/

/-- C15: after a successful `createAlias` the cached sequence is the old one with the
returned entity appended; when the old sequence was empty `currentAlias` is the returned
entity, otherwise `currentAlias` is the reference it was and reads the value it read. -/
theorem createAlias_appends (s : AliasStore) (response : Envelope Alias)
    (hs : response.success = true) :
    (s.createAlias (.ok response)).1.aliases = s.aliases ++ [response.data] ∧
    (s.aliases = [] →
      (s.createAlias (.ok response)).1.currentAliasValue = some response.data) ∧
    (s.aliases ≠ [] →
      (s.createAlias (.ok response)).1.currentAlias = s.currentAlias ∧
      ∀ c, s.currentAliasValue = some c →
        (s.createAlias (.ok response)).1.currentAliasValue = some c) := by
  refine ⟨by simp [AliasStore.createAlias, hs], ?_, ?_⟩
  · intro hnil
    simp [AliasStore.createAlias, hs, hnil, AliasStore.currentAliasValue, AliasStore.deref]
  · intro hne
    have hcur : (s.createAlias (.ok response)).1.currentAlias = s.currentAlias := by
      simp [AliasStore.createAlias, hs, hne]
    refine ⟨hcur, ?_⟩
    intro c hc
    cases hr : s.currentAlias with
    | none => simp [AliasStore.currentAliasValue, hr] at hc
    | some r =>
      cases r with
      | detached a =>
        simpa [AliasStore.currentAliasValue, hr, AliasStore.deref,
          AliasStore.createAlias, hs, hne] using hc
      | cached j =>
        have hj : s.aliases[j]? = some c := by
          simpa [AliasStore.currentAliasValue, hr, AliasStore.deref] using hc
        have hlt : j < s.aliases.length := by
          by_contra hge
          rw [List.getElem?_eq_none (by omega)] at hj
          cases hj
        have happ : (s.aliases ++ [response.data])[j]? = some c := by
          rw [List.getElem?_append_left hlt]; exact hj
        simpa [AliasStore.currentAliasValue, hr, AliasStore.deref,
          AliasStore.createAlias, hs, hne] using happ

/-- Witness of C15: creating `B` in the store caching `[A]` with current alias `A` gives
the cache `[A, B]` and leaves the current alias `A`. -/
theorem createAlias_appends_witness :
    (storeWithA.createAlias (okAlias aliasB0)).1.aliases = [aliasA, aliasB0] ∧
    (storeWithA.createAlias (okAlias aliasB0)).1.currentAliasValue = some aliasA :=
  have h := createAlias_appends storeWithA { success := true, data := aliasB0, message := "" } rfl
  ⟨h.1, (h.2.2 (by decide)).2 aliasA (by decide)⟩

/-! ## Advisory reads -/

/-- C16: `checkAliasAvailability` leaves the store state as it is and always returns a
value: `false` when the call is rejected or answers `success = false`, the `available`
value of the response otherwise. -/
theorem checkAliasAvailability_degrades (s : AliasStore)
    (outcome : Except String AvailabilityResponse) :
    s.checkAliasAvailability outcome =
      (s, Except.ok
        (match outcome with
         | .error _ => false
         | .ok response => response.success && response.available)) := by
  cases outcome with
  | error err => rfl
  | ok response => cases hs : response.success <;> simp [AliasStore.checkAliasAvailability, hs]

/-- C17: on a transport error `fetchAliasStats` and `fetchUnreadCounts` return `[]` and
leave the state unchanged, while `fetchEmailStats` leaves the state unchanged and throws
the error to its caller. -/
theorem fetchEmailStats_rethrows :
    storeWithA.fetchAliasStats (.error "Network Error") = (storeWithA, .ok []) ∧
    readWindow.fetchUnreadCounts (.error "Network Error") = (readWindow, .ok []) ∧
    readWindow.fetchEmailStats (.error "Network Error")
      = (readWindow, .error "Network Error") :=
  ⟨rfl, rfl, rfl⟩

/-! ## `fetchEmails` and `removeEmail` -/

/-- C18: after a successful `fetchEmails` the window is the `records` of the response,
`pagination` is `{current, size, total}` of the response, and `emailStats`, the selected
email and the unread-count table are unchanged. -/
theorem fetchEmails_replaces_window (s : EmailStore) (response : Envelope EmailPage)
    (hs : response.success = true) :
    (s.fetchEmails (.ok response)).1.emails = response.data.records ∧
    (s.fetchEmails (.ok response)).1.pagination =
      { current := response.data.current, size := response.data.size,
        total := response.data.total } ∧
    (s.fetchEmails (.ok response)).1.emailStats = s.emailStats ∧
    (s.fetchEmails (.ok response)).1.currentEmail = s.currentEmail ∧
    (s.fetchEmails (.ok response)).1.unreadCounts = s.unreadCounts := by
  simp [EmailStore.fetchEmails, hs]

/-- Witness of C18: fetching the sample page into the window holding email 1. -/
theorem fetchEmails_replaces_window_witness :
    (readWindow.fetchEmails
        (.ok { success := true, data := samplePage, message := "" })).1.emails
      = samplePage.records ∧
    (readWindow.fetchEmails
        (.ok { success := true, data := samplePage, message := "" })).1.pagination
      = { current := 2, size := 20, total := 21 } :=
  have h := fetchEmails_replaces_window readWindow
    { success := true, data := samplePage, message := "" } rfl
  ⟨h.1, h.2.1⟩

/-- C19: `removeEmail(id)` ends in the same window and the same `emailStats` as a
successful `deleteEmail(id)` from the same state. -/
theorem removeEmail_matches_deleteEmail {δ : Type} (s : EmailStore) (emailId : Nat)
    (response : Envelope δ) (hs : response.success = true) :
    (s.removeEmail emailId).emails = (s.deleteEmail emailId (.ok response)).1.emails ∧
    (s.removeEmail emailId).emailStats
      = (s.deleteEmail emailId (.ok response)).1.emailStats := by
  cases hfi : findIndex (fun e : Email => e.id == emailId) s.emails with
  | none =>
    cases hc : s.currentEmail with
    | none => simp [EmailStore.removeEmail, EmailStore.deleteEmail, hs, hfi, hc]
    | some c =>
      by_cases h : c.id = emailId <;>
        simp [EmailStore.removeEmail, EmailStore.deleteEmail, hs, hfi, hc, h]
  | some index =>
    cases hget : s.emails[index]? with
    | none =>
      cases hc : s.currentEmail with
      | none => simp [EmailStore.removeEmail, EmailStore.deleteEmail, hs, hfi, hget, hc]
      | some c =>
        by_cases h : c.id = emailId <;>
          simp [EmailStore.removeEmail, EmailStore.deleteEmail, hs, hfi, hget, hc, h]
    | some email =>
      cases hc : s.currentEmail with
      | none => simp [EmailStore.removeEmail, EmailStore.deleteEmail, hs, hfi, hget, hc]
      | some c =>
        by_cases h : c.id = emailId <;>
          simp [EmailStore.removeEmail, EmailStore.deleteEmail, hs, hfi, hget, hc, h]

/-- Witness of C19 on the window `[{id: 1, isRead: false, isImportant: true}]` with stats
`{1, 1, 1}`: both paths end in the empty window with stats `{0, 0, 0}`. -/
theorem removeEmail_matches_deleteEmail_witness :
    (singleUnreadWindow.removeEmail 1).emails
      = (singleUnreadWindow.deleteEmail 1 okUnit).1.emails ∧
    (singleUnreadWindow.removeEmail 1).emailStats
      = (singleUnreadWindow.deleteEmail 1 okUnit).1.emailStats :=
  removeEmail_matches_deleteEmail singleUnreadWindow 1
    { success := true, data := (), message := "" } rfl

/-! ## Read emails stay read -/

/-- C20, as stated, fails: the window holds the read email 1 in slot 0;
`updateEmailStatus(1, {isRead: false})` mutates that object in place, and slot 0 then
holds it with `isRead = false`. -/
theorem updateEmailStatus_unreads_counterexample :
    readWindow.emails[0]?
      = some { id := 1, isRead := true, isImportant := true, subject := "hello" } ∧
    readWindow.slotAfter (.updateEmailStatus 1 { isRead := some false }) 0 = some 0 ∧
    (readWindow.perform (.updateEmailStatus 1 { isRead := some false })).emails[0]?
      = some { id := 1, isRead := false, isImportant := true, subject := "hello" } := by
  decide

/-- C20, amended: for every operation exposed by the email store and every argument and
gateway outcome, except `updateEmailStatus` called with an `updates` object carrying
`isRead = false`, an email that is read in the window before the call and whose object
is still in the window after the call is still read. -/
theorem read_stays_read (s : EmailStore) (call : EmailCall) (i j : Nat) (e : Email)
    (hi : s.emails[i]? = some e) (hread : e.isRead = true)
    (hcall : ∀ emailId updates,
      call = EmailCall.updateEmailStatus emailId updates → updates.isRead ≠ some false)
    (hj : s.slotAfter call i = some j) :
    ∃ e', (s.perform call).emails[j]? = some e' ∧ e'.isRead = true := by
  have h : ReadAt s.emails i := ⟨e, hi, hread⟩
  have hsame : ∀ {s' : EmailStore}, s'.emails = s.emails → some i = some j →
      ∃ e', s'.emails[j]? = some e' ∧ e'.isRead = true := by
    intro s' he hij
    cases hij
    rw [he]
    exact h
  cases call with
  | fetchEmails outcome =>
    cases outcome with
    | error err => exact hsame rfl (by simpa [EmailStore.slotAfter, Outcome.succeeded] using hj)
    | ok response =>
      cases hs : response.success with
      | true => simp [EmailStore.slotAfter, Outcome.succeeded, hs] at hj
      | false =>
        exact hsame (by simp [EmailStore.perform, EmailStore.fetchEmails, hs])
          (by simpa [EmailStore.slotAfter, Outcome.succeeded, hs] using hj)
  | searchEmails outcome =>
    cases outcome with
    | error err => exact hsame rfl (by simpa [EmailStore.slotAfter, Outcome.succeeded] using hj)
    | ok response =>
      cases hs : response.success with
      | true => simp [EmailStore.slotAfter, Outcome.succeeded, hs] at hj
      | false =>
        exact hsame
          (by simp [EmailStore.perform, EmailStore.searchEmails, EmailStore.fetchEmails, hs])
          (by simpa [EmailStore.slotAfter, Outcome.succeeded, hs] using hj)
  | clearEmails => simp [EmailStore.slotAfter] at hj
  | fetchEmailDetail outcome =>
    cases outcome with
    | error err => exact hsame rfl hj
    | ok response =>
      cases hs : response.success <;>
        exact hsame (by simp [EmailStore.perform, EmailStore.fetchEmailDetail, hs]) hj
  | sendEmail outcome => cases outcome <;> exact hsame rfl hj
  | syncEmails outcome => cases outcome <;> exact hsame rfl hj
  | replyEmail outcome => cases outcome <;> exact hsame rfl hj
  | forwardEmail outcome => cases outcome <;> exact hsame rfl hj
  | downloadAttachment outcome => cases outcome <;> exact hsame rfl hj
  | uploadAttachment outcome => cases outcome <;> exact hsame rfl hj
  | fetchNewEmails outcome => cases outcome <;> exact hsame rfl hj
  | fetchEmailAttachments outcome => cases outcome <;> exact hsame rfl hj
  | fetchEmailStats outcome =>
    cases outcome with
    | error err => exact hsame rfl hj
    | ok response =>
      cases hs : response.success <;>
        exact hsame (by simp [EmailStore.perform, EmailStore.fetchEmailStats, hs]) hj
  | fetchUnreadCounts outcome =>
    cases outcome with
    | error err => exact hsame rfl hj
    | ok response =>
      cases hs : response.success <;>
        exact hsame (by simp [EmailStore.perform, EmailStore.fetchUnreadCounts, hs]) hj
  | markAsRead emailId outcome =>
    have hij : j = i := by simpa [EmailStore.slotAfter] using hj.symm
    subst hij
    cases outcome with
    | error err => exact h
    | ok response =>
      cases hs : response.success with
      | false => simpa [EmailStore.perform, EmailStore.markAsRead, hs] using h
      | true =>
        simp only [EmailStore.perform, EmailStore.markAsRead, hs, if_true]
        cases findIndex (fun e : Email => e.id == emailId) s.emails with
        | none => exact h
        | some k => exact readAt_updateAt _ _ _ _ (fun _ _ => rfl) h
  | markAsImportant emailId important outcome =>
    have hij : j = i := by simpa [EmailStore.slotAfter] using hj.symm
    subst hij
    cases outcome with
    | error err => exact h
    | ok response =>
      cases hs : response.success with
      | false => simpa [EmailStore.perform, EmailStore.markAsImportant, hs] using h
      | true =>
        simp only [EmailStore.perform, EmailStore.markAsImportant, hs, if_true]
        cases findIndex (fun e : Email => e.id == emailId) s.emails with
        | none => exact h
        | some k => exact readAt_updateAt _ _ _ _ (fun _ hx => hx) h
  | deleteEmail emailId outcome =>
    cases outcome with
    | error err => exact hsame rfl (by simpa [EmailStore.slotAfter, Outcome.succeeded] using hj)
    | ok response =>
      cases hs : response.success with
      | false =>
        exact hsame (by simp [EmailStore.perform, EmailStore.deleteEmail, hs])
          (by simpa [EmailStore.slotAfter, Outcome.succeeded, hs] using hj)
      | true =>
        have hj' : spliceSlot s.emails emailId i = some j := by
          simpa [EmailStore.slotAfter, Outcome.succeeded, hs] using hj
        have := readAt_spliced s emailId i j hj' h
        rw [← deleteEmail_emails s emailId response hs] at this
        exact this
  | removeEmail emailId =>
    have hj' : spliceSlot s.emails emailId i = some j := by
      simpa [EmailStore.slotAfter] using hj
    have := readAt_spliced s emailId i j hj' h
    rw [← removeEmail_emails s emailId] at this
    exact this
  | addEmail email =>
    have hij : j = i + 1 := by simpa [EmailStore.slotAfter] using hj.symm
    subst hij
    simpa [EmailStore.perform, EmailStore.addEmail] using h
  | updateEmailStatus emailId updates =>
    have hij : j = i := by simpa [EmailStore.slotAfter] using hj.symm
    subst hij
    have hu := hcall emailId updates rfl
    have hkeep : ∀ x : Email, x.isRead = true → (x.assign updates).isRead = true := by
      intro x hx
      cases hup : updates.isRead with
      | none => simpa [Email.assign, hup] using hx
      | some b =>
        cases b with
        | true => simp [Email.assign, hup]
        | false => exact absurd hup hu
    simp only [EmailStore.perform, EmailStore.updateEmailStatus]
    cases findIndex (fun e : Email => e.id == emailId) s.emails with
    | none => exact h
    | some k => exact readAt_updateAt _ _ _ _ hkeep h
  | batchMarkEmails emailIds action value outcome =>
    cases outcome with
    | error err => exact hsame rfl (by simpa [EmailStore.slotAfter, Outcome.succeeded] using hj)
    | ok response =>
      cases hs : response.success with
      | false =>
        exact hsame (by simp [EmailStore.perform, EmailStore.batchMarkEmails, hs])
          (by simpa [EmailStore.slotAfter, Outcome.succeeded, hs] using hj)
      | true =>
        have hfold := readAt_batch_fold action value emailIds s (some i)
          (fun i' hi' => by cases hi'; exact h)
        have hj' := hj
        simp only [EmailStore.slotAfter, Outcome.succeeded, hs, if_true] at hj'
        have := hfold.2 j hj'
        simpa [EmailStore.perform, EmailStore.batchMarkEmails, hs] using this

/-- Witness of C20 (amended): in the window `[email 1 (read)]`, after `addEmail` of another
email the object of slot 0 is in slot 1 and still read. -/
theorem read_stays_read_witness :
    ∃ e', (readWindow.perform (.addEmail pushedEmail)).emails[1]? = some e' ∧
      e'.isRead = true :=
  read_stays_read readWindow (.addEmail pushedEmail) 0 1
    { id := 1, isRead := true, isImportant := true, subject := "hello" }
    (by decide) rfl (fun _ _ h => by cases h) (by decide)

/-! ## The counters of `emailStats` -/

/-- C21: in every state reachable from a state whose `totalCount`, `unreadCount` and
`importantCount` are not negative, by any sequence of `markAsRead`, `markAsImportant`,
`deleteEmail`, `batchMarkEmails`, `addEmail`, `removeEmail` and `clearEmails` with
successful or failed gateway calls, the three counters are not negative. -/
theorem counters_stay_non_negative (s0 s : EmailStore) (h0 : s0.emailStats.NonNegative)
    (h : EmailStore.CountersReachable s0 s) : s.emailStats.NonNegative :=
  nonNegative_reachable s0 s h0 h

/-- Witness of C21: from the window `[{id: 1, unread, important}]` with stats `{1, 1, 1}`,
`deleteEmail(1)` followed by `markAsRead(1)` and `markAsImportant(1, false)`. -/
theorem counters_stay_non_negative_witness :
    ((((singleUnreadWindow.deleteEmail 1 okUnit).1.markAsRead 1 okUnit).1.markAsImportant
        1 false okUnit).1.emailStats).NonNegative :=
  counters_stay_non_negative singleUnreadWindow _ ⟨by decide, by decide, by decide⟩
    (EmailStore.CountersReachable.markAsImportant 1 false okUnit
      (EmailStore.CountersReachable.markAsRead 1 okUnit
        (EmailStore.CountersReachable.deleteEmail 1 okUnit
          EmailStore.CountersReachable.start)))

/-- C23: when `totalCount` equals the number of emails in the window, it does so again
after `addEmail`, after `removeEmail`, and after a successful `deleteEmail`,
`batchMarkEmails` (whatever the action), `markAsRead` or `markAsImportant`. -/
theorem totalCount_tracks_window {δ : Type} (s : EmailStore) (email : Email)
    (emailId : Nat) (emailIds : List Nat) (action value : String) (important : Bool)
    (response : Envelope δ) (hs : response.success = true) (h : s.TotalTracksWindow) :
    (s.addEmail email).TotalTracksWindow ∧
    (s.removeEmail emailId).TotalTracksWindow ∧
    (s.deleteEmail emailId (.ok response)).1.TotalTracksWindow ∧
    (s.batchMarkEmails emailIds action value (.ok response)).1.TotalTracksWindow ∧
    (s.markAsRead emailId (.ok response)).1.TotalTracksWindow ∧
    (s.markAsImportant emailId important (.ok response)).1.TotalTracksWindow := by
  have h' := h
  unfold EmailStore.TotalTracksWindow at h'
  refine ⟨?_, tracks_removeEmail s emailId h, tracks_deleteEmail s emailId response hs h,
    ?_, ?_, ?_⟩
  · unfold EmailStore.TotalTracksWindow
    by_cases hlen : s.emails.length < maxArrayLength <;>
      cases hrd : email.isRead <;> cases him : email.isImportant <;>
      simp [EmailStore.addEmail, hrd, him, hlen, h', jsAddOne_length]
  · simpa [EmailStore.batchMarkEmails, hs] using tracks_batch_fold action value emailIds s h
  · unfold EmailStore.TotalTracksWindow
    cases hfi : findIndex (fun e : Email => e.id == emailId) s.emails <;>
      simp [EmailStore.markAsRead, hs, hfi, length_updateAt, h']
  · unfold EmailStore.TotalTracksWindow
    cases hfi : findIndex (fun e : Email => e.id == emailId) s.emails <;>
      simp [EmailStore.markAsImportant, hs, hfi, length_updateAt, h']

/-- Witness of C23 on the window `[email 1, email 2]` with `totalCount = 2`: after the
batch deletion of `[2, 1]` the window is empty and `totalCount` is 0. -/
theorem totalCount_tracks_window_witness :
    (trackedWindow.batchMarkEmails [2, 1] "delete" "true" okUnit).1.TotalTracksWindow ∧
    (trackedWindow.batchMarkEmails [2, 1] "delete" "true" okUnit).1.emails = [] ∧
    (trackedWindow.batchMarkEmails [2, 1] "delete" "true" okUnit).1.emailStats.totalCount = 0 :=
  ⟨(totalCount_tracks_window trackedWindow pushedEmail 1 [2, 1] "delete" "true" false
      { success := true, data := (), message := "" } rfl rfl).2.2.2.1,
    by decide, by decide⟩

/-- C26, as stated, fails: the counters of `roundingWindow` are not negative and its
`totalCount` is `2^53`; `addEmail` of the unread email 9 leaves `totalCount` at `2^53`,
the double nearest to `2^53 + 1`, and `removeEmail(9)` gives back the window but sets
`totalCount` to `2^53 - 1`. -/
theorem addEmail_then_removeEmail_rounding_counterexample :
    roundingWindow.emailStats.NonNegative ∧
    roundingWindow.emailStats.totalCount = 9007199254740992 ∧
    (roundingWindow.addEmail pushedEmail).emailStats.totalCount = 9007199254740992 ∧
    ((roundingWindow.addEmail pushedEmail).removeEmail pushedEmail.id).emails
      = roundingWindow.emails ∧
    ((roundingWindow.addEmail pushedEmail).removeEmail pushedEmail.id).emailStats.totalCount
      = 9007199254740991 ∧
    ((roundingWindow.addEmail pushedEmail).removeEmail pushedEmail.id).emailStats
      ≠ roundingWindow.emailStats := by
  refine ⟨⟨?_, ?_, ?_⟩, ?_, ?_, ?_, ?_, ?_⟩ <;> decide

/-- C26 (amended): when the counters are not negative and every counter that
`addEmail(e)` increments is at most `Number.MAX_SAFE_INTEGER` (`totalCount`, `unreadCount`
when `e` is unread, `importantCount` when `e` is important), `addEmail(e)` followed by
`removeEmail(e.id)` gives back the window (same emails, same order) and `totalCount`,
`unreadCount`, `importantCount` and `todayCount`, also when the window already holds an
email with the id of `e`. -/
theorem addEmail_then_removeEmail (s : EmailStore) (e : Email)
    (h : s.emailStats.NonNegative)
    (htotal : s.emailStats.totalCount ≤ maxSafeInteger)
    (hunread : e.isRead = false → s.emailStats.unreadCount ≤ maxSafeInteger)
    (himportant : e.isImportant = true → s.emailStats.importantCount ≤ maxSafeInteger) :
    ((s.addEmail e).removeEmail e.id).emails = s.emails ∧
    ((s.addEmail e).removeEmail e.id).emailStats = s.emailStats := by
  obtain ⟨h1, h2, h3⟩ := h
  unfold maxSafeInteger at htotal hunread himportant
  have hfi : findIndex (fun x : Email => x.id == e.id) (e :: s.emails) = some 0 := by
    simp [findIndex]
  have hmax : ∀ a : Int, 0 ≤ a → max 0 (a + 1 - 1) = a := fun a ha => by omega
  have e1 : jsAddOne s.emailStats.totalCount = s.emailStats.totalCount + 1 :=
    jsAddOne_exact _ (by omega) (by omega)
  have e2 : e.isRead = false →
      jsAddOne s.emailStats.unreadCount = s.emailStats.unreadCount + 1 :=
    fun hr => jsAddOne_exact _ (by omega) (by have := hunread hr; omega)
  have e3 : e.isImportant = true →
      jsAddOne s.emailStats.importantCount = s.emailStats.importantCount + 1 :=
    fun hi => jsAddOne_exact _ (by omega) (by have := himportant hi; omega)
  cases hrd : e.isRead <;> cases him : e.isImportant <;>
    simp only [hrd, him, true_implies, reduceCtorEq, false_implies] at e2 e3 <;>
    by_cases hlen : s.emails.length < maxArrayLength
  all_goals
    cases hc : s.currentEmail with
    | none =>
      simp [EmailStore.addEmail, EmailStore.removeEmail, hfi, hc, hrd, him, hlen, hmax,
        e1, e2, e3, h1, h2, h3]
    | some c =>
      by_cases hcid : c.id = e.id <;>
        simp [EmailStore.addEmail, EmailStore.removeEmail, hfi, hc, hcid, hrd, him, hlen,
          hmax, e1, e2, e3, h1, h2, h3]

/-- Witness of C26 (amended) on the window holding the read email 1: adding another email
with id 1 and removing id 1 gives back the window and the stats. -/
theorem addEmail_then_removeEmail_witness :
    ((readWindow.addEmail { pushedEmail with id := 1 }).removeEmail 1).emails
      = readWindow.emails ∧
    ((readWindow.addEmail { pushedEmail with id := 1 }).removeEmail 1).emailStats
      = readWindow.emailStats :=
  addEmail_then_removeEmail readWindow { pushedEmail with id := 1 }
    ⟨by decide, by decide, by decide⟩ (by decide) (by decide) (by decide)

/-! ## The statistics table of the alias store -/

/-- C22, as stated, fails: the table holds one record, for alias 1;
`updateAliasStats(2, {aliasId: 1, unreadCount: 5})` finds no record for alias 2 and pushes
`{ aliasId: 2, ...stats }`, whose `aliasId` is 1; the table then holds two records for
alias 1 and `getAliasStats(2)` finds nothing. -/
theorem updateAliasStats_foreign_id_counterexample :
    (statsStore.aliasStats.map (fun r => r.aliasId)).Nodup ∧
    (statsStore.updateAliasStats 2
        { aliasId := some 1, unreadCount := some 5 }).aliasStats.map (fun r => r.aliasId)
      = [1, 1] ∧
    (statsStore.updateAliasStats 2
        { aliasId := some 1, unreadCount := some 5 }).getAliasStats 2 = none := by
  decide

/-- C22, amended: when no two records of the table share an `aliasId` and the stats object
carries no `aliasId` other than the given one, after `updateAliasStats(aliasId, stats)` no
two records share an `aliasId`, and `getAliasStats(aliasId)` returns a record for that
alias carrying the fields of `stats`. -/
theorem updateAliasStats_upserts (s : AliasStore) (aliasId : Nat) (stats : AliasStatPatch)
    (hu : (s.aliasStats.map (fun r => r.aliasId)).Nodup)
    (hid : stats.aliasId = none ∨ stats.aliasId = some aliasId) :
    ((s.updateAliasStats aliasId stats).aliasStats.map (fun r => r.aliasId)).Nodup ∧
    ∃ r, (s.updateAliasStats aliasId stats).getAliasStats aliasId = some r ∧
      r.aliasId = aliasId ∧
      (∀ v, stats.emailCount = some v → r.emailCount = some v) ∧
      (∀ v, stats.unreadCount = some v → r.unreadCount = some v) := by
  have hassign : ∀ c : AliasStat, c.aliasId = aliasId →
      (c.assign stats).aliasId = aliasId ∧
      (∀ v, stats.emailCount = some v → (c.assign stats).emailCount = some v) ∧
      (∀ v, stats.unreadCount = some v → (c.assign stats).unreadCount = some v) := by
    intro c hc
    refine ⟨?_, ?_, ?_⟩
    · rcases hid with h | h <;> simp [AliasStat.assign, h, hc]
    · intro v hv; simp [AliasStat.assign, hv]
    · intro v hv; simp [AliasStat.assign, hv]
  cases hfi : findIndex (fun r : AliasStat => r.aliasId == aliasId) s.aliasStats with
  | none =>
    have hall := findIndex_none_forall _ _ hfi
    have hnew := hassign { aliasId := aliasId } rfl
    have htable : (s.updateAliasStats aliasId stats).aliasStats
        = s.aliasStats ++ [({ aliasId := aliasId } : AliasStat).assign stats] := by
      simp [AliasStore.updateAliasStats, hfi]
    refine ⟨?_, _, ?_, hnew⟩
    · rw [htable, List.map_append, List.map_singleton, hnew.1]
      refine List.Nodup.append hu (List.nodup_singleton _) ?_
      simp only [List.disjoint_singleton, List.mem_map, not_exists, not_and]
      intro r hr he
      have := hall r hr
      simp [he] at this
    · unfold AliasStore.getAliasStats
      rw [htable]
      exact find?_split _ s.aliasStats _ [] hall (by simp [hnew.1])
  | some index =>
    obtain ⟨pre, c, post, hl, hlen, hc, hpre⟩ := findIndex_some_split _ _ _ hfi
    have hc' : c.aliasId = aliasId := by simpa using hc
    have hnew := hassign c hc'
    subst hlen
    have htable : (s.updateAliasStats aliasId stats).aliasStats
        = pre ++ c.assign stats :: post := by
      rw [hl] at hfi
      simp only [AliasStore.updateAliasStats, hl, hfi, updateAt_split]
    refine ⟨?_, _, ?_, hnew⟩
    · rw [htable]
      rw [hl] at hu
      simpa [hnew.1, hc'] using hu
    · unfold AliasStore.getAliasStats
      rw [htable]
      exact find?_split _ pre _ post hpre (by simp [hnew.1])

/-- Witness of C22 (amended): `updateAliasStats(1, {unreadCount: 0})` on the table holding
the record of alias 1. -/
theorem updateAliasStats_upserts_witness :
    ((statsStore.updateAliasStats 1 { unreadCount := some 0 }).aliasStats.map
      (fun r => r.aliasId)).Nodup ∧
    ∃ r, (statsStore.updateAliasStats 1 { unreadCount := some 0 }).getAliasStats 1 = some r ∧
      r.aliasId = 1 ∧
      (∀ v, ({ unreadCount := some 0 } : AliasStatPatch).emailCount = some v →
        r.emailCount = some v) ∧
      (∀ v, ({ unreadCount := some 0 } : AliasStatPatch).unreadCount = some v →
        r.unreadCount = some v) :=
  updateAliasStats_upserts statsStore 1 { unreadCount := some 0 } (by decide) (Or.inl rfl)

/-! ## The requests of the alias API and the methods the store calls -/

/-- C24: `switchToAlias(5, {page: 0, size: undefined, folder: ""})` builds a POST to
`/api/aliases/5/switch` whose query carries `page = 0`, `size = undefined` and
`folder = ""`: the spread of `params` overwrites the defaults 1, 20 and "inbox" written
before it. With `params = {}` the query carries the defaults. -/
theorem switchToAlias_spread_overrides_defaults :
    userAliasApi.switchToAlias 5
        { page := some (QueryValue.num 0), size := some QueryValue.undefined,
          folder := some (QueryValue.str "") }
      = { url := "/api/aliases/5/switch"
          method := "post"
          params :=
            { page := QueryValue.num 0, size := QueryValue.undefined,
              folder := QueryValue.str "", others := [] } } ∧
    userAliasApi.switchToAlias 5 {}
      = { url := "/api/aliases/5/switch"
          method := "post"
          params :=
            { page := QueryValue.num 1, size := QueryValue.num 20,
              folder := QueryValue.str "inbox", others := [] } } := by
  decide

/-- C27: of the nine methods the alias store invokes on `aliasApi`, only `switchToAlias`
is defined on the exported object; a store operation that invokes one of the other
eight gets a `TypeError` whatever the gateway would serve: `createAlias` throws it and
leaves the state as it was, `checkAliasAvailability` returns `false`. -/
theorem aliasApi_methods_undefined :
    aliasStoreGatewayCalls.filter (fun m => decide (m ∈ aliasApiMethods))
      = ["switchToAlias"] ∧
    aliasStoreGatewayCalls.filter (fun m => decide (m ∉ aliasApiMethods))
      = ["getAliases", "getAliasStats", "getDefaultAlias", "createAlias", "updateAlias",
         "deleteAlias", "setDefaultAlias", "checkAliasAvailability"] ∧
    (∀ (s : AliasStore) (served : Outcome Alias),
      s.createAlias (aliasApiCall "createAlias" served)
        = (s, Except.error "TypeError: aliasApi.createAlias is not a function")) ∧
    (∀ (s : AliasStore) (served : Outcome (List Alias)),
      s.fetchAliases (aliasApiCall "getAliases" served)
        = ({ s with loading := false },
            Except.error "TypeError: aliasApi.getAliases is not a function")) ∧
    (∀ (s : AliasStore) (served : Except String AvailabilityResponse),
      s.checkAliasAvailability (aliasApiCall "checkAliasAvailability" served)
        = (s, Except.ok false)) :=
  ⟨by decide, by decide, fun _ _ => rfl, fun _ _ => rfl, fun _ _ => rfl⟩

/-! ## `validatePlatformConfig` -/

/-- C25: for the config with `platformType = "constructor"` and
`platformUrl = "https://mail.example.com"` the platform type is not a key of
`PLATFORM_CONFIG_TEMPLATES`, yet the property read finds the inherited `constructor`, the
test `!template` does not fire, and iterating the missing `requiredFields` throws: no
result with `valid = false` and a message is returned. -/
theorem validatePlatformConfig_throws_on_inherited_key
    (urlParses emailMatches : String → Bool) :
    PLATFORM_CONFIG_TEMPLATES.lookup "constructor" = none ∧
    validatePlatformConfig urlParses emailMatches
        { platformType := some "constructor", platformUrl := some "https://mail.example.com" }
      = Except.error "TypeError: template.requiredFields is not iterable" :=
  ⟨by decide, rfl⟩
